import Mathlib

/-!
Verification development for the timetable constraint-compilation and
infeasibility-diagnosis engine (`timetable_solver.py`, `timetable_schema.py`).

The CP-SAT solver is an external black box (an oracle from constraint-group
flags to a status).  The model compiled by `solve_timetable` is embedded as a
decidable satisfaction predicate over variable assignments, the `ValueError`
raise paths as an error checker returning the first configuration error, and
`diagnose_infeasible` as a function that also records the trace of solver
re-invocations it performs.
-/

namespace Timetable

/-- Mirror of the Python dataclass `FixedSessionSpec` (period required,
day and duration optional). -/
structure FixedSessionSpec where
  period : String
  day : Option String
  duration : Option Nat
deriving DecidableEq, Repr

/-- Mirror of the Python dataclass `SubjectSpec`. -/
structure SubjectSpec where
  name : String
  teachers : List String
  periods_per_week : Nat
  teaching_mode : String
  min_contiguous_periods : Nat
  max_contiguous_periods : Nat
  tags : List String
  allowed_starts : List (String × String)
  fixed_sessions : List FixedSessionSpec
deriving DecidableEq, Repr

/-- Mirror of the Python dataclass `ClassSemesterSpec`. -/
structure ClassSemesterSpec where
  class_name : String
  semester : String
  subjects : List SubjectSpec
  blocked_periods : List (String × String)
deriving DecidableEq, Repr

/-- Keyword arguments of `solve_timetable` / `diagnose_infeasible`
(minus the time limit, which only bounds the black-box solver). -/
structure Input where
  specs : List ClassSemesterSpec
  days : List String
  periods : List String
  min_classes_per_week : Option Nat
  min_classes_per_week_by_class : List (String × Nat)
  max_periods_per_day_by_tag : List (String × Nat)
  teacher_max_periods_per_week : List (String × Nat)
  teacher_unavailable_periods : List (String × List (String × String))
  teacher_preferred_periods : List (String × List String)
deriving DecidableEq, Repr

/-- Enable flags of `solve_timetable` (the constraint-group toggles used by
the diagnoser); `teacher` is `enable_teacher_constraints`,
`teacherPrefs` is `enable_teacher_preferences`. -/
structure SolveFlags where
  placement : Bool
  tagLimits : Bool
  minClasses : Bool
  teacher : Bool
  teacherPrefs : Bool
deriving DecidableEq, Repr

/-- All groups enabled: the defaults of `solve_timetable`. -/
def fullFlags : SolveFlags := ⟨true, true, true, true, true⟩

/-- Flags of the baseline relaxation re-solve inside `diagnose_infeasible`. -/
def baselineFlags : SolveFlags := ⟨false, false, false, false, false⟩

/-- Flags of the min-classes-per-week isolation re-solve. -/
def minFlags : SolveFlags := ⟨false, false, true, false, false⟩

/-- Flags of the tag-limit isolation re-solve. -/
def tagFlags : SolveFlags := ⟨false, true, false, false, false⟩

/-- Flags of the placement-constraint isolation re-solve. -/
def placementFlags : SolveFlags := ⟨true, false, false, false, false⟩

/-- CP-SAT solve statuses as consumed by this code base. -/
inductive CpStatus where
  | optimal
  | feasible
  | infeasible
  | model_invalid
  | unknown
deriving DecidableEq, Repr

/-- Mirror of `solver.StatusName(status)`. -/
def statusName : CpStatus → String
  | CpStatus.optimal => "OPTIMAL"
  | CpStatus.feasible => "FEASIBLE"
  | CpStatus.infeasible => "INFEASIBLE"
  | CpStatus.model_invalid => "MODEL_INVALID"
  | CpStatus.unknown => "UNKNOWN"

/-- Mirror of the Python test `status in (cp_model.OPTIMAL, cp_model.FEASIBLE)`. -/
def isFeasibleStatus : CpStatus → Bool
  | CpStatus.optimal => true
  | CpStatus.feasible => true
  | _ => false

/-- Values of the boolean/integer decision variables created by
`solve_timetable` (CP-SAT variables are integers; booleans have the
domain constraint recorded separately in `varDomainsOK`). -/
structure Assignment where
  y : String → String → Nat → Nat → Nat → Int
  occ : String → Nat → Nat → Int
  occSubj : String → String → Nat → Nat → Int
  occSubjTeacher : String → String → String → Nat → Nat → Int

/-- Values of the auxiliary penalty variables created for the objective
(`day_count`, `excess`, `tocc`). -/
structure PenaltyAssignment where
  dayCount : String → String → Nat → Int
  excess : String → String → Nat → Int
  tocc : String → Nat → Nat → Int

/-! ### Small helpers: Python dict and sorting semantics -/

/-- Python `dict.get(k)`: first binding of the key, if any. -/
def dictGet? {α : Type} (m : List (String × α)) (k : String) : Option α :=
  (m.find? (fun kv => kv.1 == k)).map (fun kv => kv.2)

/-- Python `dict.get(k, d)`. -/
def dictGetD {α : Type} (m : List (String × α)) (k : String) (d : α) : α :=
  (dictGet? m k).getD d

/-- Python `m[k] = v`: overwrite in place if the key is present (keeping its
position, as an insertion-ordered dict does), else append. -/
def dictSet {α : Type} : List (String × α) → String → α → List (String × α)
  | [], k, v => [(k, v)]
  | kv :: rest, k, v =>
      if kv.1 == k then (k, v) :: rest else kv :: dictSet rest k v

/-- Lexicographic comparison of code-point lists (Python compares strings by
code points). -/
def strLtData : List Char → List Char → Bool
  | [], [] => false
  | [], _ :: _ => true
  | _ :: _, [] => false
  | c :: cs, d :: ds =>
      if c.toNat < d.toNat then true
      else if d.toNat < c.toNat then false
      else strLtData cs ds

/-- Lexicographic string order (Python compares strings by code points). -/
def strLeB (a b : String) : Bool := strLtData a.data b.data || a == b

/-- Insert into a list sorted by `le` (stable). -/
def insertSortedBy {α : Type} (le : α → α → Bool) (x : α) : List α → List α
  | [] => [x]
  | z :: rest => if le x z then x :: z :: rest else z :: insertSortedBy le x rest

/-- Insertion sort by `le` (stable; mirrors Python `sorted`). -/
def sortBy {α : Type} (le : α → α → Bool) : List α → List α
  | [] => []
  | x :: rest => insertSortedBy le x (sortBy le rest)

/-- Python `sorted(d.items())` for string-keyed dicts (keys are unique, so
sorting by key alone agrees with tuple order). -/
def sortedItems {α : Type} (m : List (String × α)) : List (String × α) :=
  sortBy (fun a b => strLeB a.1 b.1) m

/-- Python `sorted(s)` for a set of strings represented as a dedup list. -/
def sortedStrs (l : List String) : List String := sortBy strLeB l

/-- Mirror of `{name: i for i, name in enumerate(l)}` (a later duplicate name
overwrites an earlier index, exactly as the Python dict comprehension does). -/
def buildIdx (l : List String) : List (String × Nat) :=
  l.enum.foldl (fun m iv => dictSet m iv.2 iv.1) []

/-- Mirror of Python `str.lower()` restricted to ASCII (all identifiers in
this code base are ASCII). -/
def lowerStr (s : String) : String := ⟨s.data.map Char.toLower⟩

/-- Mirror of `(subj.teaching_mode or "any_of").lower()`. -/
def modeLower (subj : SubjectSpec) : String :=
  lowerStr (if subj.teaching_mode == "" then "any_of" else subj.teaching_mode)

/-- Mirror of `range(lo, hi + 1)` (Python, empty when `lo > hi`): the
candidate durations `range(min_contiguous_periods, max_contiguous_periods+1)`. -/
def rangeTo (lo hi : Nat) : List Nat := List.range' lo (hi + 1 - lo)

/-- Quote a name the way the Python f-strings do: `'name'`. -/
def q (s : String) : String := "\x27" ++ s ++ "\x27"

/-! ### Static precheck (`_precheck_and_explain_obvious_infeasibility`) -/

/-- Mirror of `_compute_required_periods_by_class`. -/
def requiredPeriodsByClass (specs : List ClassSemesterSpec) : List (String × Nat) :=
  specs.foldl
    (fun m cs => dictSet m cs.class_name ((cs.subjects.map (fun s => s.periods_per_week)).sum))
    []

/-- Mirror of `_compute_required_periods_by_teacher`: only the definite
(`all_of`) load is attributed to teachers; `any_of` subjects are skipped. -/
def requiredPeriodsByTeacher (specs : List ClassSemesterSpec) : List (String × Nat) :=
  specs.foldl
    (fun m cs =>
      cs.subjects.foldl
        (fun m2 subj =>
          if modeLower subj == "all_of" then
            subj.teachers.foldl
              (fun m3 t => dictSet m3 t (dictGetD m3 t 0 + subj.periods_per_week))
              m2
          else m2)
        m)
    []

/-- Mirror of `_compute_required_tag_periods_by_class`. -/
def requiredTagPeriodsByClass (specs : List ClassSemesterSpec) (tag : String) :
    List (String × Nat) :=
  specs.foldl
    (fun m cs =>
      dictSet m cs.class_name
        ((cs.subjects.map (fun subj =>
            if subj.tags.contains tag then subj.periods_per_week else 0)).sum))
    []

/-- Mirror of `by_class.get(cs.class_name, min_classes_per_week)`. -/
def requiredMinFor (byClass : List (String × Nat)) (globalMin : Option Nat)
    (cls : String) : Option Nat :=
  match dictGet? byClass cls with
  | some v => some v
  | none => globalMin

/-- Mirror of `_precheck_and_explain_obvious_infeasibility`: the list of
human-readable necessary-condition failures, in the order the Python code
appends them (empty list = no obvious contradiction). -/
def precheck (specs : List ClassSemesterSpec) (num_days num_periods : Nat)
    (min_classes_per_week : Option Nat)
    (min_classes_per_week_by_class : List (String × Nat))
    (max_periods_per_day_by_tag : List (String × Nat))
    (teacher_max_periods_per_week : List (String × Nat)) : List String :=
  let num_slots := num_days * num_periods
  let required_by_class := requiredPeriodsByClass specs
  -- 1) Class weekly periods cannot exceed available slots.
  ((sortedItems required_by_class).flatMap (fun kv =>
    if kv.2 > num_slots then
      ["Class " ++ q kv.1 ++ " requires " ++ toString kv.2 ++
        " total periods/week (sum of periods_per_week), but calendar only has " ++
        toString num_slots ++ " slots/week."]
    else [])) ++
  -- 2) min_classes_per_week cannot exceed required periods.
  (specs.flatMap (fun cs =>
    let req_periods := dictGetD required_by_class cs.class_name 0
    match requiredMinFor min_classes_per_week_by_class min_classes_per_week cs.class_name with
    | none => []
    | some required_min =>
        (if required_min > req_periods then
          ["Constraint min_classes_per_week fails for class " ++ q cs.class_name ++
            ": minimum is " ++ toString required_min ++ ", but this class only schedules " ++
            toString req_periods ++ " periods/week (fixed by periods_per_week)."]
         else []) ++
        (if required_min > num_slots then
          ["Constraint min_classes_per_week fails for class " ++ q cs.class_name ++
            ": minimum is " ++ toString required_min ++ ", but calendar only has " ++
            toString num_slots ++ " slots/week."]
         else []))) ++
  -- 3) Teacher weekly load checks (definite all_of load only).
  ((sortedItems (requiredPeriodsByTeacher specs)).flatMap (fun kv =>
    (if kv.2 > num_slots then
      ["Teacher " ++ q kv.1 ++ " requires at least " ++ toString kv.2 ++
        " periods/week due to co-teaching (all_of), but can teach at most " ++
        toString num_slots ++ " periods/week due to teacher no-overlap."]
     else []) ++
    (match dictGet? teacher_max_periods_per_week kv.1 with
     | none => []
     | some tmax =>
        if kv.2 > tmax then
          ["Teacher " ++ q kv.1 ++ " requires at least " ++ toString kv.2 ++
            " periods/week due to co-teaching (all_of), but teacher max_periods_per_week is " ++
            toString tmax ++ "."]
        else []))) ++
  -- 4) Tag daily limit necessary check (the `limit < 0` guard of the Python
  -- code is vacuous here, limits being Nat).
  ((sortedItems max_periods_per_day_by_tag).flatMap (fun tl =>
    (sortedItems (requiredTagPeriodsByClass specs tl.1)).flatMap (fun kv =>
      if kv.2 > tl.2 * num_days then
        ["Constraint max_periods_per_day_by_tag[" ++ q tl.1 ++ "] fails for class " ++
          q kv.1 ++ ": needs " ++ toString kv.2 ++ " " ++ q tl.1 ++
          " periods/week, but limit " ++ toString tl.2 ++ "/day over " ++
          toString num_days ++ " days allows only " ++ toString (tl.2 * num_days) ++ "/week."]
      else [])))

/-- The precheck applied to a full `Input`, as `diagnose_infeasible` calls it. -/
def precheckInp (inp : Input) : List String :=
  precheck inp.specs inp.days.length inp.periods.length
    inp.min_classes_per_week inp.min_classes_per_week_by_class
    inp.max_periods_per_day_by_tag inp.teacher_max_periods_per_week

/-! ### The compiled model: satisfaction of the hard constraints

Each `model.Add(...)` of `solve_timetable` becomes one Boolean conjunct; each
Python loop becomes a `List.all` / `Finset.sum` over the same index range.
A `y[(class, subject, d, start, dur)]` variable exists exactly when
`dur ∈ [min_contiguous_periods, max_contiguous_periods]` and
`start + dur ≤ num_periods` (the creation-time pruning), so every sum over
`... if key in y` carries that guard. -/

/-- Candidate durations of a subject (`range(min_cp, max_cp + 1)`). -/
def durRange (subj : SubjectSpec) : List Nat :=
  rangeTo subj.min_contiguous_periods subj.max_contiguous_periods

/-- Mirror of `day_to_idx = {day: i for i, day in enumerate(days)}` lookup. -/
def dayToIdx (inp : Input) (dn : String) : Option Nat :=
  dictGet? (buildIdx inp.days) dn

/-- Mirror of `period_to_idx` lookup. -/
def periodToIdx (inp : Input) (pn : String) : Option Nat :=
  dictGet? (buildIdx inp.periods) pn

/-- Domain of a CP-SAT `NewBoolVar`. -/
def isBool01 (v : Int) : Bool := v == 0 || v == 1

/-- Domain constraints coming from variable creation: every created boolean
variable takes a value in `{0, 1}`. -/
def varDomainsOK (inp : Input) (a : Assignment) : Bool :=
  inp.specs.all fun cs =>
    ((List.range inp.days.length).all fun d =>
      (List.range inp.periods.length).all fun p =>
        isBool01 (a.occ cs.class_name d p)) &&
    (cs.subjects.all fun subj =>
      ((List.range inp.days.length).all fun d =>
        (List.range inp.periods.length).all fun p =>
          isBool01 (a.occSubj cs.class_name subj.name d p) &&
          (subj.teachers.all fun t =>
            isBool01 (a.occSubjTeacher cs.class_name subj.name t d p))) &&
      ((List.range inp.days.length).all fun d =>
        (List.range inp.periods.length).all fun start =>
          (durRange subj).all fun dur =>
            if start + dur ≤ inp.periods.length then
              isBool01 (a.y cs.class_name subj.name d start dur)
            else true))

/-- Mirror of `total_periods_scheduled` for one class. -/
def totalOccSum (inp : Input) (a : Assignment) (cls : String) : Int :=
  ∑ d ∈ Finset.range inp.days.length, ∑ p ∈ Finset.range inp.periods.length,
    a.occ cls d p

/-- Optional minimum scheduled periods per week (`enable_min_classes_per_week`
section); the `required_min > num_slots` raise path lives in `compileCheck`. -/
def minClassesOK (inp : Input) (fl : SolveFlags) (a : Assignment) : Bool :=
  if fl.minClasses then
    inp.specs.all fun cs =>
      match requiredMinFor inp.min_classes_per_week_by_class
          inp.min_classes_per_week cs.class_name with
      | none => true
      | some required_min =>
          decide ((required_min : Int) ≤ totalOccSum inp a cs.class_name)
  else true

/-- Class-level blocked periods (`enable_placement_constraints` section);
unknown day/period names are raise paths handled by `compileCheck`. -/
def blockedOK (inp : Input) (fl : SolveFlags) (a : Assignment) : Bool :=
  if fl.placement then
    inp.specs.all fun cs =>
      cs.blocked_periods.all fun dp =>
        match dayToIdx inp dp.1, periodToIdx inp dp.2 with
        | some d, some p => a.occ cs.class_name d p == 0
        | _, _ => true
  else true

/-- Weighted start sum of one subject on one day:
`sum(dur * y[...] for start ... for dur ... if key in y)` restricted to day `d`. -/
def durSumDay (inp : Input) (a : Assignment) (cls sname : String)
    (minc maxc d : Nat) : Int :=
  ∑ start ∈ Finset.range inp.periods.length, ∑ dur ∈ Finset.Icc minc maxc,
    if start + dur ≤ inp.periods.length then (dur : Int) * a.y cls sname d start dur
    else 0

/-- Whole-week weighted start sum of one subject (the left-hand side of the
exact weekly load equality). -/
def weeklySum (inp : Input) (a : Assignment) (cls sname : String)
    (minc maxc : Nat) : Int :=
  ∑ d ∈ Finset.range inp.days.length, durSumDay inp a cls sname minc maxc d

/-- Exact weekly load: for each subject
`Σ duration · start == periods_per_week` (unconditional section). -/
def weeklyLoadOK (inp : Input) (a : Assignment) : Bool :=
  inp.specs.all fun cs => cs.subjects.all fun subj =>
    decide (weeklySum inp a cs.class_name subj.name subj.min_contiguous_periods
        subj.max_contiguous_periods = (subj.periods_per_week : Int))

/-- Subject-level allowed start slots (`enable_placement_constraints`
section); unknown names are raise paths handled by `compileCheck`. -/
def allowedStartsOK (inp : Input) (fl : SolveFlags) (a : Assignment) : Bool :=
  if fl.placement then
    inp.specs.all fun cs => cs.subjects.all fun subj =>
      if subj.allowed_starts.isEmpty then true
      else
        let allowedSet := subj.allowed_starts.filterMap fun dp =>
          match dayToIdx inp dp.1, periodToIdx inp dp.2 with
          | some d, some p => some (d, p)
          | _, _ => none
        (List.range inp.days.length).all fun d =>
          (List.range inp.periods.length).all fun start =>
            if allowedSet.contains (d, start) then true
            else
              (durRange subj).all fun dur =>
                if start + dur ≤ inp.periods.length then
                  a.y cs.class_name subj.name d start dur == 0
                else true
  else true

/-- Mirror of `days_to_consider` for a fixed session (`none` on the
unknown-day raise path). -/
def fsDaysToConsider (inp : Input) (fs : FixedSessionSpec) : Option (List Nat) :=
  match fs.day with
  | none => some (List.range inp.days.length)
  | some dn =>
      match dayToIdx inp dn with
      | some d => some [d]
      | none => none

/-- Constraint added for one fixed session.  On each raise path the conjunct
is vacuous (`true`); `compileCheck` reports those inputs instead.  In the
given-duration branch the Python candidate filter `if key in y` is implied by
the two preceding raise guards, so the candidate list is `days_to_consider`
itself. -/
def fixedSessionOK (inp : Input) (a : Assignment) (cls sname : String)
    (minc maxc : Nat) (fs : FixedSessionSpec) : Bool :=
  match periodToIdx inp fs.period with
  | none => true
  | some start =>
    match fsDaysToConsider inp fs with
    | none => true
    | some daysTC =>
      match fs.duration with
      | some dur =>
          if dur < minc || maxc < dur then true
          else if inp.periods.length < start + dur then true
          else if daysTC.isEmpty then true
          else ((daysTC.map fun d => a.y cls sname d start dur).sum) == 1
      | none =>
          let cands := daysTC.flatMap fun d =>
            (rangeTo minc maxc).filterMap fun dur =>
              if start + dur ≤ inp.periods.length then some (d, dur) else none
          if cands.isEmpty then true
          else ((cands.map fun c => a.y cls sname c.1 start c.2).sum) == 1

/-- Fixed sessions section (`enable_placement_constraints`). -/
def fixedSessionsOK (inp : Input) (fl : SolveFlags) (a : Assignment) : Bool :=
  if fl.placement then
    inp.specs.all fun cs => cs.subjects.all fun subj =>
      subj.fixed_sessions.all fun fs =>
        fixedSessionOK inp a cs.class_name subj.name
          subj.min_contiguous_periods subj.max_contiguous_periods fs
  else true

/-- Mirror of `subjects_by_tag` (a tag maps to its subjects in list order). -/
def subjectsByTag (subjects : List SubjectSpec) : List (String × List SubjectSpec) :=
  subjects.foldl
    (fun m subj =>
      subj.tags.foldl (fun m2 tag => dictSet m2 tag (dictGetD m2 tag [] ++ [subj])) m)
    []

/-- Tag-scoped daily caps (`enable_tag_limits` section). -/
def tagLimitsOK (inp : Input) (fl : SolveFlags) (a : Assignment) : Bool :=
  if fl.tagLimits && !inp.max_periods_per_day_by_tag.isEmpty then
    inp.specs.all fun cs =>
      let byTag := subjectsByTag cs.subjects
      inp.max_periods_per_day_by_tag.all fun tl =>
        let tagged := dictGetD byTag tl.1 []
        if tagged.isEmpty then true
        else
          (List.range inp.days.length).all fun d =>
            decide
              (((tagged.map fun subj =>
                  ∑ p ∈ Finset.range inp.periods.length,
                    a.occSubj cs.class_name subj.name d p).sum) ≤ (tl.2 : Int))
  else true

/-- Sum of the start variables whose block covers period `p` on day `d`. -/
def coverSum (inp : Input) (a : Assignment) (cls sname : String)
    (minc maxc d p : Nat) : Int :=
  ∑ start ∈ Finset.range inp.periods.length, ∑ dur ∈ Finset.Icc minc maxc,
    if start + dur ≤ inp.periods.length ∧ start ≤ p ∧ p < start + dur then
      a.y cls sname d start dur
    else 0

/-- Linkage `occ_subj == Σ covering starts`; the Python code writes
`occ_subj == 0` when no start covers the slot, which coincides with the
empty sum. -/
def occSubjLinkOK (inp : Input) (a : Assignment) : Bool :=
  inp.specs.all fun cs => cs.subjects.all fun subj =>
    (List.range inp.days.length).all fun d =>
      (List.range inp.periods.length).all fun p =>
        a.occSubj cs.class_name subj.name d p ==
          coverSum inp a cs.class_name subj.name subj.min_contiguous_periods
            subj.max_contiguous_periods d p

/-- Sum of `occ_subj` over the subjects of one class at one slot. -/
def classOccSum (a : Assignment) (cs : ClassSemesterSpec) (d p : Nat) : Int :=
  ((cs.subjects.map fun subj => a.occSubj cs.class_name subj.name d p).sum)

/-- Class non-overlap (`Σ occ_subj ≤ 1`) and `occ == Σ occ_subj`. -/
def classNonOverlapOK (inp : Input) (a : Assignment) : Bool :=
  inp.specs.all fun cs =>
    (List.range inp.days.length).all fun d =>
      (List.range inp.periods.length).all fun p =>
        decide (classOccSum a cs d p ≤ 1) &&
        (a.occ cs.class_name d p == classOccSum a cs d p)

/-- Teaching-mode linkage for one subject: under `all_of` every listed
teacher's occupancy equals the subject occupancy; otherwise (`any_of`) the
sum over listed teachers equals the subject occupancy. -/
def teacherLinkSubjOK (a : Assignment) (cls : String) (numDays numPeriods : Nat)
    (subj : SubjectSpec) : Bool :=
  (List.range numDays).all fun d =>
    (List.range numPeriods).all fun p =>
      if modeLower subj == "all_of" then
        subj.teachers.all fun t =>
          a.occSubjTeacher cls subj.name t d p == a.occSubj cls subj.name d p
      else
        ((subj.teachers.map fun t => a.occSubjTeacher cls subj.name t d p).sum) ==
          a.occSubj cls subj.name d p

/-- Teaching-mode linkage section. -/
def teacherLinkOK (inp : Input) (a : Assignment) : Bool :=
  inp.specs.all fun cs => cs.subjects.all fun subj =>
    teacherLinkSubjOK a cs.class_name inp.days.length inp.periods.length subj

/-- Mirror of `teachers = sorted({t for cs in specs for subj ... for t ...})`. -/
def teachersOf (specs : List ClassSemesterSpec) : List String :=
  sortedStrs ((specs.flatMap fun cs => cs.subjects.flatMap fun subj => subj.teachers).eraseDups)

/-- Mirror of `sum(occ_subj_teacher[(cs.class_name, subj.name, t, d, p)] for
cs in specs for subj in cs.subjects if t in subj.teachers)`. -/
def teacherSlotSum (inp : Input) (a : Assignment) (t : String) (d p : Nat) : Int :=
  ((inp.specs.map fun cs =>
      (((cs.subjects.filter fun subj => subj.teachers.contains t).map fun subj =>
          a.occSubjTeacher cs.class_name subj.name t d p).sum)).sum)

/-- Teacher exclusivity: a teacher is in at most one class per slot. -/
def teacherExclusiveOK (inp : Input) (a : Assignment) : Bool :=
  (teachersOf inp.specs).all fun t =>
    (List.range inp.days.length).all fun d =>
      (List.range inp.periods.length).all fun p =>
        decide (teacherSlotSum inp a t d p ≤ 1)

/-- Whole-week occupancy sum of a teacher (for the weekly cap). -/
def teacherWeekSum (inp : Input) (a : Assignment) (t : String) : Int :=
  ((inp.specs.map fun cs =>
      (((cs.subjects.filter fun subj => subj.teachers.contains t).map fun subj =>
          ∑ d ∈ Finset.range inp.days.length, ∑ p ∈ Finset.range inp.periods.length,
            a.occSubjTeacher cs.class_name subj.name t d p).sum)).sum)

/-- Teacher hard limits (`enable_teacher_constraints` section): weekly cap and
unavailable slots; unknown names are raise paths handled by `compileCheck`. -/
def teacherConstraintsOK (inp : Input) (fl : SolveFlags) (a : Assignment) : Bool :=
  if fl.teacher then
    (teachersOf inp.specs).all fun t =>
      (match dictGet? inp.teacher_max_periods_per_week t with
       | none => true
       | some tmax => decide (teacherWeekSum inp a t ≤ (tmax : Int))) &&
      ((dictGetD inp.teacher_unavailable_periods t []).all fun dp =>
        match dayToIdx inp dp.1, periodToIdx inp dp.2 with
        | some d, some p => teacherSlotSum inp a t d p == 0
        | _, _ => true)
  else true

/-- Satisfaction of every hard constraint of the compiled model (variable
domains plus all `model.Add` calls outside the objective machinery), in the
order the `solve_timetable` sections add them. -/
def satisfiesHard (inp : Input) (fl : SolveFlags) (a : Assignment) : Bool :=
  varDomainsOK inp a &&
  minClassesOK inp fl a &&
  blockedOK inp fl a &&
  weeklyLoadOK inp a &&
  allowedStartsOK inp fl a &&
  fixedSessionsOK inp fl a &&
  tagLimitsOK inp fl a &&
  occSubjLinkOK inp a &&
  classNonOverlapOK inp a &&
  teacherLinkOK inp a &&
  teacherExclusiveOK inp a &&
  teacherConstraintsOK inp fl a

/-! ### Objective machinery (soft constraints) -/

/-- Unweighted count of starts of one subject on one day (the sum defining
the auxiliary `day_count` variable). -/
def countSum (inp : Input) (a : Assignment) (cls sname : String)
    (minc maxc d : Nat) : Int :=
  ∑ start ∈ Finset.range inp.periods.length, ∑ dur ∈ Finset.Icc minc maxc,
    if start + dur ≤ inp.periods.length then a.y cls sname d start dur else 0

/-- Preferred periods of a teacher (`teacher_preferred_periods.get(t, []) or []`). -/
def prefListFor (inp : Input) (t : String) : List String :=
  dictGetD inp.teacher_preferred_periods t []

/-- Constraints defining the penalty variables: `day_count` / `excess` are
`NewIntVar(0, num_periods)` with `day_count == Σ starts`,
`excess >= day_count - 1`, `excess >= 0`; each `tocc` is a `NewBoolVar`
equal to the teacher's slot occupancy, created only for non-preferred periods
of teachers with a preference list (when `enable_teacher_preferences`). -/
def satisfiesPenalty (inp : Input) (fl : SolveFlags) (a : Assignment)
    (pa : PenaltyAssignment) : Bool :=
  (inp.specs.all fun cs => cs.subjects.all fun subj =>
    (List.range inp.days.length).all fun d =>
      let dc := pa.dayCount cs.class_name subj.name d
      let ex := pa.excess cs.class_name subj.name d
      decide (0 ≤ dc ∧ dc ≤ (inp.periods.length : Int)) &&
      decide (0 ≤ ex ∧ ex ≤ (inp.periods.length : Int)) &&
      (dc == countSum inp a cs.class_name subj.name subj.min_contiguous_periods
          subj.max_contiguous_periods d) &&
      decide (dc - 1 ≤ ex) && decide (0 ≤ ex)) &&
  (if fl.teacherPrefs then
    (teachersOf inp.specs).all fun t =>
      let preferred := prefListFor inp t
      if preferred.isEmpty then true
      else
        (List.range inp.days.length).all fun d =>
          (List.range inp.periods.length).all fun p =>
            if preferred.contains (inp.periods.getD p "") then true
            else
              isBool01 (pa.tocc t d p) &&
              (pa.tocc t d p == teacherSlotSum inp a t d p)
   else true)

/-- Weight of the same-day repetition penalties (`w_subject_daily`). -/
def w_subject_daily : Int := 10

/-- Weight of the teacher preference penalties (`w_teacher_pref`). -/
def w_teacher_pref : Int := 1

/-- Sum of the `excess` penalty variables, in the order the Python code
appends them to `penalties_subject_daily_starts`. -/
def repPenaltySum (inp : Input) (pa : PenaltyAssignment) : Int :=
  ((inp.specs.map fun cs =>
      ((cs.subjects.map fun subj =>
          (((List.range inp.days.length).map fun d =>
              pa.excess cs.class_name subj.name d).sum)).sum)).sum)

/-- Sum of the `tocc` penalty variables, in the order the Python code appends
them to `penalties_teacher_preference` (empty when preferences are disabled). -/
def prefPenaltySum (inp : Input) (fl : SolveFlags) (pa : PenaltyAssignment) : Int :=
  if fl.teacherPrefs then
    (((teachersOf inp.specs).map fun t =>
        let preferred := prefListFor inp t
        if preferred.isEmpty then 0
        else
          (((List.range inp.days.length).map fun d =>
              (((List.range inp.periods.length).map fun p =>
                  if preferred.contains (inp.periods.getD p "") then 0
                  else pa.tocc t d p).sum)).sum)).sum)
  else 0

/-- The minimized objective, exactly as built by `model.Minimize(...)`. -/
def objectiveValue (inp : Input) (fl : SolveFlags) (pa : PenaltyAssignment) : Int :=
  w_subject_daily * repPenaltySum inp pa + w_teacher_pref * prefPenaltySum inp fl pa

/-! ### Configuration errors (`raise ValueError` paths of `solve_timetable`)

`compileCheck` returns the first error message raised while building the
model, in program order, or `none` when compilation succeeds.  A raised error
aborts compilation before `solver.Solve` is ever called. -/

/-- Common message prefix `class '...' semester '...' subject '...': `. -/
def subjPrefix (cs : ClassSemesterSpec) (subj : SubjectSpec) : String :=
  "class " ++ q cs.class_name ++ " semester " ++ q cs.semester ++
    " subject " ++ q subj.name ++ ": "

/-- Sanity-check section (lines 443-472): class load versus slots, contiguous
bounds versus periods/day, weekly load versus minimum block, and existence of
a feasible (start, duration). -/
def sanityError (inp : Input) : Option String :=
  let num_slots := inp.days.length * inp.periods.length
  inp.specs.findSome? fun cs =>
    (if ((cs.subjects.map fun subj => subj.periods_per_week).sum) > num_slots then
      some ("class " ++ q cs.class_name ++ " semester " ++ q cs.semester ++
        " needs " ++ toString ((cs.subjects.map fun subj => subj.periods_per_week).sum) ++
        " periods/week (based on periods_per_week), but calendar only has " ++
        toString num_slots ++ " slots/week")
     else none) <|>
    (cs.subjects.findSome? fun subj =>
      (if subj.min_contiguous_periods > inp.periods.length ||
          subj.max_contiguous_periods > inp.periods.length then
        some (subjPrefix cs subj ++ "contiguous periods cannot exceed periods/day (" ++
          toString inp.periods.length ++ ")")
       else none) <|>
      (if subj.periods_per_week < subj.min_contiguous_periods then
        some (subjPrefix cs subj ++ "periods_per_week (" ++
          toString subj.periods_per_week ++ ") must be >= min_contiguous_periods (" ++
          toString subj.min_contiguous_periods ++ ")")
       else none) <|>
      (if !((List.range inp.periods.length).any fun start =>
            (durRange subj).any fun dur => start + dur ≤ inp.periods.length) then
        some (subjPrefix cs subj ++ "no feasible (start,duration) fits into a day")
       else none))

/-- Raise path of the min-classes section (`required_min > num_slots`). -/
def minClassesError (inp : Input) : Option String :=
  let num_slots := inp.days.length * inp.periods.length
  inp.specs.findSome? fun cs =>
    match requiredMinFor inp.min_classes_per_week_by_class
        inp.min_classes_per_week cs.class_name with
    | none => none
    | some required_min =>
        if required_min > num_slots then
          some ("class " ++ q cs.class_name ++ " minimum classes/week is " ++
            toString required_min ++ ", but calendar only has " ++
            toString num_slots ++ " slots/week")
        else none

/-- Raise paths of the blocked-periods section (unknown day/period names). -/
def blockedError (inp : Input) : Option String :=
  inp.specs.findSome? fun cs =>
    cs.blocked_periods.findSome? fun dp =>
      if (dayToIdx inp dp.1).isNone then
        some ("class " ++ q cs.class_name ++ " semester " ++ q cs.semester ++
          ": blocked_periods day " ++ q dp.1 ++ " is not in calendar.days")
      else if (periodToIdx inp dp.2).isNone then
        some ("class " ++ q cs.class_name ++ " semester " ++ q cs.semester ++
          ": blocked_periods period " ++ q dp.2 ++ " is not in calendar.periods")
      else none

/-- Raise paths of the allowed-starts section (unknown day/period names). -/
def allowedStartsError (inp : Input) : Option String :=
  inp.specs.findSome? fun cs =>
    cs.subjects.findSome? fun subj =>
      if subj.allowed_starts.isEmpty then none
      else
        subj.allowed_starts.findSome? fun dp =>
          if (dayToIdx inp dp.1).isNone then
            some (subjPrefix cs subj ++ "allowed_starts day " ++ q dp.1 ++
              " is not in calendar.days")
          else if (periodToIdx inp dp.2).isNone then
            some (subjPrefix cs subj ++ "allowed_starts period " ++ q dp.2 ++
              " is not in calendar.periods")
          else none

/-- Mirror of `fs.day or '*'` in the fixed-session error messages. -/
def fsDayStar (fs : FixedSessionSpec) : String :=
  match fs.day with
  | some dn => dn
  | none => "*"

/-- Raise paths for one fixed session, in the order the Python code checks
them: unknown period, unknown day, duration outside the contiguous bounds,
block not fitting in the day, and no candidate variable. -/
def fixedSessionError (inp : Input) (cs : ClassSemesterSpec) (subj : SubjectSpec)
    (fs : FixedSessionSpec) : Option String :=
  match periodToIdx inp fs.period with
  | none =>
      some (subjPrefix cs subj ++ ("fixed_sessions period " ++ q fs.period ++
        " is not in calendar.periods"))
  | some start =>
    match fsDaysToConsider inp fs with
    | none =>
        some (subjPrefix cs subj ++ ("fixed_sessions day " ++
          q ((fs.day).getD "") ++ " is not in calendar.days"))
    | some daysTC =>
      match fs.duration with
      | some dur =>
          if dur < subj.min_contiguous_periods || subj.max_contiguous_periods < dur then
            some (subjPrefix cs subj ++ ("fixed_sessions duration " ++ toString dur ++
              " must be within [" ++ toString subj.min_contiguous_periods ++ ", " ++
              toString subj.max_contiguous_periods ++ "]"))
          else if inp.periods.length < start + dur then
            some (subjPrefix cs subj ++ ("fixed_sessions (" ++ fsDayStar fs ++ " " ++
              fs.period ++ ") with duration " ++ toString dur ++
              " does not fit in the day"))
          else if daysTC.isEmpty then
            some (subjPrefix cs subj ++ ("fixed_sessions (" ++ fsDayStar fs ++ " " ++
              fs.period ++ ", dur=" ++ toString dur ++ ") is not a valid start/duration"))
          else none
      | none =>
          let cands := daysTC.flatMap fun d =>
            (rangeTo subj.min_contiguous_periods subj.max_contiguous_periods).filterMap
              fun dur =>
                if start + dur ≤ inp.periods.length then some (d, dur) else none
          if cands.isEmpty then
            some (subjPrefix cs subj ++ ("fixed_sessions (" ++ fsDayStar fs ++ " " ++
              fs.period ++ ") has no feasible duration"))
          else none

/-- Raise paths of the fixed-sessions section. -/
def fixedSessionsError (inp : Input) : Option String :=
  inp.specs.findSome? fun cs =>
    cs.subjects.findSome? fun subj =>
      subj.fixed_sessions.findSome? fun fs => fixedSessionError inp cs subj fs

/-- Raise paths of the teacher hard-limit section (unknown unavailable
day/period names). -/
def teacherUnavailError (inp : Input) : Option String :=
  (teachersOf inp.specs).findSome? fun t =>
    (dictGetD inp.teacher_unavailable_periods t []).findSome? fun dp =>
      if (dayToIdx inp dp.1).isNone then
        some ("teacher " ++ q t ++ ": unavailable_periods day " ++ q dp.1 ++
          " is not in calendar.days")
      else if (periodToIdx inp dp.2).isNone then
        some ("teacher " ++ q t ++ ": unavailable_periods period " ++ q dp.2 ++
          " is not in calendar.periods")
      else none

/-- Raise paths of the teacher-preference section (unknown preferred period
names; Python iterates the set, we iterate the list — an error exists in one
iff it exists in the other). -/
def preferredError (inp : Input) : Option String :=
  (teachersOf inp.specs).findSome? fun t =>
    let preferred := prefListFor inp t
    if preferred.isEmpty then none
    else
      preferred.findSome? fun pn =>
        if (periodToIdx inp pn).isNone then
          some ("teacher " ++ q t ++ ": preferred_period " ++ q pn ++
            " is not in calendar.periods")
        else none

/-- First configuration error raised while compiling the model under the
given flags, in program order; `none` iff compilation reaches
`solver.Solve`. -/
def compileCheck (inp : Input) (fl : SolveFlags) : Option String :=
  sanityError inp <|>
  (if fl.minClasses then minClassesError inp else none) <|>
  (if fl.placement then blockedError inp else none) <|>
  (if fl.placement then allowedStartsError inp else none) <|>
  (if fl.placement then fixedSessionsError inp else none) <|>
  (if fl.teacher then teacherUnavailError inp else none) <|>
  (if fl.teacherPrefs then preferredError inp else none)

/-- Behaviour of `solve_timetable` with the solver abstracted to an oracle:
either a configuration error (raised before any solver invocation) or the
status the black-box solver returns for the compiled model. -/
def compileAndSolve (inp : Input) (fl : SolveFlags)
    (oracle : SolveFlags → CpStatus) : Except String CpStatus :=
  match compileCheck inp fl with
  | some e => Except.error e
  | none => Except.ok (oracle fl)

/-! ### Infeasibility diagnoser (`diagnose_infeasible`)

The function returns the explanation lines together with the trace of
`solve_timetable` re-invocations it performed (identified by their
constraint-group flags), in order. -/

/-- Header line printed above the precheck reasons. -/
def precheckHeader : String :=
  "Obvious infeasibility detected (necessary-condition checks):"

/-- Lines reported when the baseline relaxation is not feasible. -/
def baselineFailLines (st : CpStatus) : List String :=
  ["Model is infeasible even with placement constraints (fixed_sessions/allowed_starts/blocked_periods), tag limits, and min_classes_per_week all disabled.",
   "Likely causes:",
   "- Teacher overload (total periods/week) or class overload",
   "- Periods/day too small for required contiguous blocks",
   "- Conflicting fixed durations vs periods_per_week (e.g., only 2 periods/week but fixed 3-period block)",
   "(Solver status: " ++ statusName st ++ ")"]

/-- Lines reported when the min-classes group fails in isolation. -/
def minFailLines : List String :=
  ["Infeasible when enabling constraint group: min_classes_per_week.",
   "Hint: For each class, min_classes_per_week must be <= total periods_per_week (sum across subjects)."]

/-- Lines reported when the tag-limit group fails in isolation. -/
def tagFailLines : List String :=
  ["Infeasible when enabling constraint group: max_periods_per_day_by_tag.",
   "Hint: total tagged periods/week must be <= limit_per_day * num_days for each class."]

/-- Lines reported when the placement group fails in isolation. -/
def placementFailLines : List String :=
  ["Infeasible when enabling constraint group: placement constraints.",
   "This includes: fixed_sessions, allowed_starts, blocked_periods (class).",
   "Hint: check for conflicts like:",
   "- Two classes fixing the same teacher to the same day/period",
   "- A fixed_session landing in a blocked_period",
   "- allowed_starts too restrictive to fit required periods_per_week"]

/-- Lines reported when no single group fails in isolation. -/
def interactionLines : List String :=
  ["Could not isolate a single failing constraint group; infeasibility likely comes from interactions between multiple groups (e.g., placement + tag limits + teacher clashes).",
   "Try temporarily removing fixed_sessions/allowed_starts or loosening tag limits to find the conflict."]

/-- Guard of the min-classes isolation step:
`min_classes_per_week is not None or (min_classes_per_week_by_class or {})`. -/
def minApplicable (inp : Input) : Bool :=
  inp.min_classes_per_week.isSome || !inp.min_classes_per_week_by_class.isEmpty

/-- Guard of the tag-limit isolation step (`if max_periods_per_day_by_tag:`). -/
def tagApplicable (inp : Input) : Bool :=
  !inp.max_periods_per_day_by_tag.isEmpty

/-- Mirror of `diagnose_infeasible`, with the black-box solver abstracted to
an oracle from constraint-group flags to a status.  Returns the explanation
lines and the ordered trace of solver calls made. -/
def diagnoseRun (inp : Input) (oracle : SolveFlags → CpStatus) :
    List String × List SolveFlags :=
  let pre := precheckInp inp
  if !pre.isEmpty then
    (precheckHeader :: pre.map (fun x => "- " ++ x), [])
  else
    let st0 := oracle baselineFlags
    if !isFeasibleStatus st0 then
      (baselineFailLines st0, [baselineFlags])
    else
      let t1 : List SolveFlags := if minApplicable inp then [minFlags] else []
      if minApplicable inp && !isFeasibleStatus (oracle minFlags) then
        (minFailLines, baselineFlags :: t1)
      else
        let t2 : List SolveFlags := t1 ++ (if tagApplicable inp then [tagFlags] else [])
        if tagApplicable inp && !isFeasibleStatus (oracle tagFlags) then
          (tagFailLines, baselineFlags :: t2)
        else
          let t3 : List SolveFlags := t2 ++ [placementFlags]
          if !isFeasibleStatus (oracle placementFlags) then
            (placementFailLines, baselineFlags :: t3)
          else
            (interactionLines, baselineFlags :: t3)

/-- The three optional constraint groups the diagnoser isolates. -/
inductive DiagGroup where
  | minLoad
  | tagCaps
  | placementGroup
deriving DecidableEq, Repr

/-- Flags enabling exactly one optional group. -/
def groupFlags : DiagGroup → SolveFlags
  | DiagGroup.minLoad => minFlags
  | DiagGroup.tagCaps => tagFlags
  | DiagGroup.placementGroup => placementFlags

/-- Explanation lines of each group. -/
def groupLines : DiagGroup → List String
  | DiagGroup.minLoad => minFailLines
  | DiagGroup.tagCaps => tagFailLines
  | DiagGroup.placementGroup => placementFailLines

/-- The isolation steps the diagnoser will attempt for this input, in the
fixed order minimum-load, tag caps, placement. -/
def optionalGroups (inp : Input) : List DiagGroup :=
  (if minApplicable inp then [DiagGroup.minLoad] else []) ++
  (if tagApplicable inp then [DiagGroup.tagCaps] else []) ++
  [DiagGroup.placementGroup]

/-- A flag set that enables exactly one optional group (and neither teacher
hard limits nor preferences). -/
def exactlyOneGroupEnabled (f : SolveFlags) : Bool :=
  ((if f.placement then 1 else 0) + (if f.tagLimits then 1 else 0) +
      (if f.minClasses then 1 else 0) == 1) &&
  !f.teacher && !f.teacherPrefs

/-! ### Schema layer (`timetable_schema.py`) for the share field

Only what claim-relevant behaviour needs: the validated `Subject` carries a
`teacher_share_min_percent` map, the share validator of `_contig_bounds`
(lines 204-222), and the conversion in `main` (lines 1300-1336) that builds
the solver-level `SubjectSpec` / `ClassSemesterSpec` — a conversion that
drops the share field entirely. -/

/-- Schema-level subject (the fields `main` reads, after pydantic
validation). -/
structure SchemaSubject where
  name : String
  teacher : Option String
  teachers : List String
  teaching_mode : String
  teacher_share_min_percent : List (String × Nat)
  periods_per_week : Nat
  min_contiguous_periods : Nat
  max_contiguous_periods : Nat
  tags : List String
  allowed_starts : List (String × String)
  fixed_sessions : List FixedSessionSpec
deriving DecidableEq, Repr

/-- One class of one semester as `main` consumes it. -/
structure SchemaClassSem where
  name : String
  subjects : List SchemaSubject
  blocked_periods : List (String × String)
deriving DecidableEq, Repr

/-- Share validator of `Subject._contig_bounds`: only under `any_of`, keys
among the teachers, percentages summing to at most 100, and the ceiling
minima fitting into `periods_per_week` (Python computes
`math.ceil(ppw * pct / 100.0)`; on these integer inputs that is the ceiling
division `(ppw * pct + 99) / 100`). -/
def teacherShareValid (s : SchemaSubject) : Bool :=
  if s.teacher_share_min_percent.isEmpty then true
  else
    (s.teaching_mode == "any_of") &&
    (s.teacher_share_min_percent.all fun kv => s.teachers.contains kv.1) &&
    (((s.teacher_share_min_percent.map fun kv => kv.2).sum) ≤ 100) &&
    (((s.teacher_share_min_percent.map fun kv =>
        (s.periods_per_week * kv.2 + 99) / 100).sum) ≤ s.periods_per_week)

/-- Every subject of every class passes the share validator. -/
def sharesValidated (classes : List SchemaClassSem) : Bool :=
  classes.all fun c => c.subjects.all teacherShareValid

/-- Conversion performed by `main`: schema subject to solver `SubjectSpec`
(the share map is not read). -/
def toSolverSubject (s : SchemaSubject) : SubjectSpec :=
  { name := s.name
    teachers :=
      if !s.teachers.isEmpty then s.teachers
      else
        match s.teacher with
        | some t => [t]
        | none => []
    periods_per_week := s.periods_per_week
    teaching_mode := if s.teaching_mode == "" then "any_of" else s.teaching_mode
    min_contiguous_periods := s.min_contiguous_periods
    max_contiguous_periods := s.max_contiguous_periods
    tags := s.tags
    allowed_starts := s.allowed_starts
    fixed_sessions := s.fixed_sessions }

/-- Conversion performed by `main`: one class to a solver spec. -/
def toSolverSpec (semester : String) (c : SchemaClassSem) : ClassSemesterSpec :=
  { class_name := c.name
    semester := semester
    subjects := c.subjects.map toSolverSubject
    blocked_periods := c.blocked_periods }

/-- Solver specs that `main` hands to `solve_timetable`. -/
def buildSpecs (semester : String) (classes : List SchemaClassSem) :
    List ClassSemesterSpec :=
  classes.map (toSolverSpec semester)

/-- Blank out the share map of a subject. -/
def eraseShareSubject (s : SchemaSubject) : SchemaSubject :=
  { s with teacher_share_min_percent := [] }

/-- Blank out every share map of a class. -/
def eraseShareClass (c : SchemaClassSem) : SchemaClassSem :=
  { c with subjects := c.subjects.map eraseShareSubject }

/-! ### Concrete instances used by witnesses and counterexamples -/

/-- One-teacher, one-period subject. -/
def exSubj1 : SubjectSpec :=
  { name := "Math", teachers := ["T1"], periods_per_week := 1,
    teaching_mode := "any_of", min_contiguous_periods := 1,
    max_contiguous_periods := 1, tags := [], allowed_starts := [],
    fixed_sessions := [] }

/-- One-subject class. -/
def exCls1 : ClassSemesterSpec :=
  { class_name := "CA", semester := "S1", subjects := [exSubj1],
    blocked_periods := [] }

/-- A 1-day, 1-period instance whose unique slot is scheduled. -/
def exInput1 : Input :=
  { specs := [exCls1], days := ["Mon"], periods := ["P1"],
    min_classes_per_week := none, min_classes_per_week_by_class := [],
    max_periods_per_day_by_tag := [], teacher_max_periods_per_week := [],
    teacher_unavailable_periods := [], teacher_preferred_periods := [] }

/-- The everywhere-one assignment (satisfies `exInput1`). -/
def exAssign1 : Assignment :=
  { y := fun _ _ _ _ _ => 1, occ := fun _ _ _ => 1,
    occSubj := fun _ _ _ _ => 1, occSubjTeacher := fun _ _ _ _ _ => 1 }

/-- A class demanding two periods on a one-slot calendar (fails precheck 1). -/
def exOverloaded : Input :=
  { exInput1 with
      specs := [{ exCls1 with subjects := [{ exSubj1 with periods_per_week := 2 }] }] }

/-! ### C2 -/

/-- Calendar 1×2, one class needing 2 periods, `min_classes_per_week = 2`:
the precheck passes and the min-classes isolation step applies. -/
def c2Input : Input :=
  { specs := [{ exCls1 with subjects := [{ exSubj1 with periods_per_week := 2 }] }],
    days := ["Mon"], periods := ["P1", "P2"],
    min_classes_per_week := some 2, min_classes_per_week_by_class := [],
    max_periods_per_day_by_tag := [], teacher_max_periods_per_week := [],
    teacher_unavailable_periods := [], teacher_preferred_periods := [] }

/-- Solver oracle that times out (UNKNOWN) on the min-classes re-solve. -/
def c2OracleUnknown : SolveFlags → CpStatus :=
  fun f => if f.minClasses then CpStatus.unknown else CpStatus.optimal

/-- Solver oracle that proves the min-classes re-solve infeasible. -/
def c2OracleInfeasible : SolveFlags → CpStatus :=
  fun f => if f.minClasses then CpStatus.infeasible else CpStatus.optimal

/-! ### C6 -/

/-- Scenario C of the spec: 5×5 calendar, two classes sharing teacher "T1",
each one subject with `periods_per_week = 5`, contiguous `[1, 1]` (teaching
mode defaulting to `any_of`). -/
def scenarioCInput : Input :=
  { specs :=
      [ { class_name := "CA", semester := "S1",
          subjects := [{ name := "SubA", teachers := ["T1"], periods_per_week := 5,
                         teaching_mode := "any_of", min_contiguous_periods := 1,
                         max_contiguous_periods := 1, tags := [], allowed_starts := [],
                         fixed_sessions := [] }],
          blocked_periods := [] },
        { class_name := "CB", semester := "S1",
          subjects := [{ name := "SubB", teachers := ["T1"], periods_per_week := 5,
                         teaching_mode := "any_of", min_contiguous_periods := 1,
                         max_contiguous_periods := 1, tags := [], allowed_starts := [],
                         fixed_sessions := [] }],
          blocked_periods := [] } ],
    days := ["Mon", "Tue", "Wed", "Thu", "Fri"],
    periods := ["P1", "P2", "P3", "P4", "P5"],
    min_classes_per_week := none, min_classes_per_week_by_class := [],
    max_periods_per_day_by_tag := [], teacher_max_periods_per_week := [],
    teacher_unavailable_periods := [], teacher_preferred_periods := [] }

/-- Scenario C with `all_of` teaching mode instead (the only mode under which
the precheck attributes definite load to teachers at all). -/
def scenarioCAllOf : Input :=
  { scenarioCInput with
      specs := scenarioCInput.specs.map fun cs =>
        { cs with subjects := cs.subjects.map fun s =>
            { s with teaching_mode := "all_of" } } }

/-! ### C9 -/

/-- Convenience constructor for solver inputs. -/
def mkInput (specs : List ClassSemesterSpec) (days periods : List String)
    (minW : Option Nat) (minByClass byTag tMax : List (String × Nat))
    (tUnavail : List (String × List (String × String)))
    (tPref : List (String × List String)) : Input :=
  ⟨specs, days, periods, minW, minByClass, byTag, tMax, tUnavail, tPref⟩

/-- Two-teacher schema subject carrying a share map. -/
def w9Subject : SchemaSubject :=
  { name := "Math", teacher := none, teachers := ["T1", "T2"],
    teaching_mode := "any_of", teacher_share_min_percent := [("T1", 50)],
    periods_per_week := 4, min_contiguous_periods := 1,
    max_contiguous_periods := 1, tags := [], allowed_starts := [],
    fixed_sessions := [] }

/-- Schema input carrying the share map `T1 -> 50`. -/
def w9ClassesA : List SchemaClassSem :=
  [{ name := "CA", subjects := [w9Subject], blocked_periods := [] }]

/-- The same schema input with share map `T2 -> 25` instead. -/
def w9ClassesB : List SchemaClassSem :=
  [{ name := "CA",
     subjects := [{ w9Subject with teacher_share_min_percent := [("T2", 25)] }],
     blocked_periods := [] }]

/-- A `y` start variable exists for these coordinates (creation pruning). -/
def yKeyExists (inp : Input) (subj : SubjectSpec) (d start dur : Nat) : Bool :=
  decide (d < inp.days.length) && decide (start < inp.periods.length) &&
  decide (subj.min_contiguous_periods ≤ dur) &&
  decide (dur ≤ subj.max_contiguous_periods) &&
  decide (start + dur ≤ inp.periods.length)

/-- The existing start variables a fixed session maps to. -/
def fsMatchingVars (inp : Input) (subj : SubjectSpec) (fs : FixedSessionSpec) :
    List (Nat × Nat × Nat) :=
  match periodToIdx inp fs.period, fsDaysToConsider inp fs with
  | some start, some daysTC =>
      daysTC.flatMap fun d =>
        match fs.duration with
        | some dur => if yKeyExists inp subj d start dur then [(d, start, dur)] else []
        | none =>
            (durRange subj).filterMap fun dur =>
              if yKeyExists inp subj d start dur then some (d, start, dur) else none
  | _, _ => []

/-- Subject with a pinned two-period Monday session. -/
def w7Subj : SubjectSpec :=
  { name := "Math", teachers := ["T1"], periods_per_week := 2,
    teaching_mode := "any_of", min_contiguous_periods := 1,
    max_contiguous_periods := 2, tags := [], allowed_starts := [],
    fixed_sessions := [{ period := "P1", day := some "Mon", duration := some 2 }] }

/-- Class wrapping `w7Subj`. -/
def w7Cls : ClassSemesterSpec :=
  { class_name := "CA", semester := "S1", subjects := [w7Subj], blocked_periods := [] }

/-- A 1-day, 2-period instance with the pinned session. -/
def w7Input : Input :=
  { specs := [w7Cls], days := ["Mon"], periods := ["P1", "P2"],
    min_classes_per_week := none, min_classes_per_week_by_class := [],
    max_periods_per_day_by_tag := [], teacher_max_periods_per_week := [],
    teacher_unavailable_periods := [], teacher_preferred_periods := [] }

/-- The assignment scheduling the pinned two-period block. -/
def w7Assign : Assignment :=
  { y := fun _ _ _ start dur => if start == 0 && dur == 2 then 1 else 0,
    occ := fun _ _ _ => 1,
    occSubj := fun _ _ _ _ => 1,
    occSubjTeacher := fun _ _ _ _ _ => 1 }

/-- Subject whose fixed-session duration 3 exceeds its contiguous bounds. -/
def w7BadSubj : SubjectSpec :=
  { w7Subj with
      fixed_sessions := [{ period := "P1", day := some "Mon", duration := some 3 }] }

/-- Class wrapping `w7BadSubj`. -/
def w7BadCls : ClassSemesterSpec := { w7Cls with subjects := [w7BadSubj] }

/-- The instance whose fixed session maps to zero start variables. -/
def w7BadInput : Input := { w7Input with specs := [w7BadCls] }

/-- Look up a subject of the compiled model by class and subject name. -/
def subjLookup (inp : Input) (c s : String) : Option SubjectSpec :=
  (inp.specs.find? (fun cs => cs.class_name == c)).bind
    (fun cs => cs.subjects.find? (fun subj => subj.name == s))

/-- Penalty-variable values extending a hard-constraint assignment:
`day_count` as the start count, `excess = max(0, day_count - 1)`, `tocc` as
the teacher slot occupancy. -/
def countOf (inp : Input) (a : Assignment) (c s : String) (d : Nat) : Int :=
  match subjLookup inp c s with
  | some subj =>
      countSum inp a c s subj.min_contiguous_periods subj.max_contiguous_periods d
  | none => 0

/-- The canonical extension of a decision-variable assignment to the penalty
variables. -/
def penaltyExtension (inp : Input) (a : Assignment) : PenaltyAssignment :=
  { dayCount := fun c s d => countOf inp a c s d
    excess := fun c s d => max 0 (countOf inp a c s d - 1)
    tocc := fun t d p => teacherSlotSum inp a t d p }

/-! ### Theorems -/

/-! ### Extraction of the individual sections from `satisfiesHard` -/

/-- Split a hard-constraint satisfaction witness into its twelve sections. -/
theorem satisfiesHard_parts (inp : Input) (fl : SolveFlags) (a : Assignment)
    (h : satisfiesHard inp fl a = true) :
    varDomainsOK inp a = true ∧ minClassesOK inp fl a = true ∧
    blockedOK inp fl a = true ∧ weeklyLoadOK inp a = true ∧
    allowedStartsOK inp fl a = true ∧ fixedSessionsOK inp fl a = true ∧
    tagLimitsOK inp fl a = true ∧ occSubjLinkOK inp a = true ∧
    classNonOverlapOK inp a = true ∧ teacherLinkOK inp a = true ∧
    teacherExclusiveOK inp a = true ∧ teacherConstraintsOK inp fl a = true := by
  simp only [satisfiesHard, Bool.and_eq_true] at h
  tauto

/-! ### C1 -/

/-- C1: every variable assignment satisfying the compiled model makes the sum
of `duration · start` over all start variables of a subject exactly equal to
its `periods_per_week` — an equality, so no satisfying assignment schedules
strictly more or strictly fewer weekly periods than configured. -/
theorem C1_exact_weekly_load (inp : Input) (fl : SolveFlags) (a : Assignment)
    (cs : ClassSemesterSpec) (subj : SubjectSpec)
    (hcs : cs ∈ inp.specs) (hsubj : subj ∈ cs.subjects)
    (h : satisfiesHard inp fl a = true) :
    weeklySum inp a cs.class_name subj.name subj.min_contiguous_periods
      subj.max_contiguous_periods = (subj.periods_per_week : Int) := by
  have hw := (satisfiesHard_parts inp fl a h).2.2.2.1
  have h1 := (List.all_eq_true.mp hw) cs hcs
  have h2 := (List.all_eq_true.mp h1) subj hsubj
  exact of_decide_eq_true h2

/-- Witness for C1 at the concrete one-slot instance. -/
theorem C1_exact_weekly_load_witness :
    weeklySum exInput1 exAssign1 "CA" "Math" 1 1 = (1 : Int) :=
  C1_exact_weekly_load exInput1 fullFlags exAssign1 exCls1 exSubj1
    (by decide) (by decide) (by decide)

/-! ### C3 -/

/-- C3: whenever at least one static necessary-condition check fails, the
diagnoser returns exactly the precheck failure reasons (under its header,
each as a bullet line) and performs zero solver calls, whatever the solver
oracle would answer. -/
theorem C3_precheck_short_circuits (inp : Input) (o : SolveFlags → CpStatus)
    (h : precheckInp inp ≠ []) :
    diagnoseRun inp o =
      (precheckHeader :: (precheckInp inp).map (fun x => "- " ++ x), []) := by
  have hne : (precheckInp inp).isEmpty = false := by
    cases hp : precheckInp inp
    · exact absurd hp h
    · rfl
  simp [diagnoseRun, hne]

/-- Witness for C3 at the overloaded one-slot instance. -/
theorem C3_precheck_short_circuits_witness :
    diagnoseRun exOverloaded (fun _ => CpStatus.optimal) =
      (precheckHeader :: (precheckInp exOverloaded).map (fun x => "- " ++ x), []) :=
  C3_precheck_short_circuits exOverloaded (fun _ => CpStatus.optimal) (by decide)

/-- C2 fails on the code: when an isolation re-solve returns the
unknown/timeout status, `diagnose_infeasible` produces exactly the same
"Infeasible when enabling constraint group" explanation as for a proven
infeasible verdict — the unknown verdict is not surfaced distinctly
(statuses whose names differ, "UNKNOWN" versus "INFEASIBLE", yield
identical diagnoser output). -/
theorem C2_unknown_reported_as_infeasible :
    diagnoseRun c2Input c2OracleUnknown = diagnoseRun c2Input c2OracleInfeasible ∧
    diagnoseRun c2Input c2OracleUnknown = (minFailLines, [baselineFlags, minFlags]) ∧
    statusName CpStatus.unknown = "UNKNOWN" ∧
    statusName CpStatus.infeasible = "INFEASIBLE" := by
  refine ⟨by decide, by decide, rfl, rfl⟩

/-- C6 fails on the code: for the Scenario C configuration the static
precheck returns no failure at all (under the default `any_of` mode no
definite per-teacher load is even computed), so the diagnoser does not
report any teacher-overload cause at the precheck stage. -/
theorem C6_counterexample :
    precheckInp scenarioCInput = [] ∧
    requiredPeriodsByTeacher scenarioCInput.specs = [] := by
  refine ⟨by decide, by decide⟩

/-- C6 amended: the Scenario C precheck finds no violation — under `any_of`
no definite per-teacher load exists, and even under `all_of` the definite
load of 10 periods does not exceed the 25 slots — so the diagnoser always
proceeds to solver re-solves instead of reporting at the precheck stage. -/
theorem C6_amended_precheck_passes :
    precheckInp scenarioCInput = [] ∧ precheckInp scenarioCAllOf = [] ∧
    ∀ o : SolveFlags → CpStatus, (diagnoseRun scenarioCInput o).2 ≠ [] := by
  refine ⟨by decide, by decide, fun o => ?_⟩
  have hempty : (precheckInp scenarioCInput).isEmpty = true := by decide
  simp only [diagnoseRun, hempty, Bool.not_true, Bool.false_eq_true, if_false]
  split
  · simp
  · split
    · simp
    · split
      · simp
      · split <;> simp

/-! ### C10 -/

/-- C10: for a subject listing exactly one teacher, the teaching-mode linkage
constraints generated under `any_of` are logically equivalent to those
generated under `all_of`: both force that teacher's occupancy variable to
equal the subject occupancy variable at every (day, period), so the two
modes admit exactly the same satisfying assignments for single-teacher
subjects. -/
theorem C10_single_teacher_mode_equiv (subj : SubjectSpec) (t : String)
    (h : subj.teachers = [t]) (a : Assignment) (c : String) (nD nP : Nat) :
    teacherLinkSubjOK a c nD nP { subj with teaching_mode := "any_of" } =
      teacherLinkSubjOK a c nD nP { subj with teaching_mode := "all_of" } ∧
    (teacherLinkSubjOK a c nD nP { subj with teaching_mode := "any_of" } = true ↔
      ∀ d, d < nD → ∀ p, p < nP →
        a.occSubjTeacher c subj.name t d p = a.occSubj c subj.name d p) := by
  have hA : modeLower { subj with teaching_mode := "any_of" } = "any_of" := rfl
  have hB : modeLower { subj with teaching_mode := "all_of" } = "all_of" := rfl
  have e1 : (("any_of" : String) == "all_of") = false := by decide
  have e2 : (("all_of" : String) == "all_of") = true := by decide
  constructor
  · simp only [teacherLinkSubjOK, hA, hB, e1, e2, if_true, if_false, h]
    simp
  · simp only [teacherLinkSubjOK, hA, e1, if_false, h]
    simp [List.all_eq_true, List.mem_range, beq_iff_eq]

/-- Witness for C10: the two modes compile to the same linkage for a concrete
single-teacher subject. -/
theorem C10_single_teacher_mode_equiv_witness :
    teacherLinkSubjOK exAssign1 "CA" 1 1 { exSubj1 with teaching_mode := "any_of" } =
      teacherLinkSubjOK exAssign1 "CA" 1 1 { exSubj1 with teaching_mode := "all_of" } :=
  (C10_single_teacher_mode_equiv exSubj1 "T1" rfl exAssign1 "CA" 1 1).1

/-- The `main` conversion never reads the share map. -/
theorem toSolverSpec_eraseShare (semester : String) (c : SchemaClassSem) :
    toSolverSpec semester (eraseShareClass c) = toSolverSpec semester c := by
  simp only [toSolverSpec, eraseShareClass, List.map_map]
  rfl

/-- Building solver specs factors through erasing the share maps. -/
theorem buildSpecs_eraseShare (semester : String) (cls : List SchemaClassSem) :
    (cls.map eraseShareClass).map (toSolverSpec semester) = buildSpecs semester cls := by
  simp only [buildSpecs, List.map_map]
  exact List.map_congr_left (fun c _ => toSolverSpec_eraseShare semester c)

/-- C9: the `teacher_share_min_percent` field is unenforced by the compiler:
two schema-validated inputs that differ only in their share maps produce the
very same solver specs, hence the same compiled model (hard constraints,
penalty constraints, objective) and the same solve outcome for every solver
oracle. -/
theorem C9_share_field_unenforced (semester : String)
    (cls1 cls2 : List SchemaClassSem) (days periods : List String)
    (minW : Option Nat) (minByClass byTag tMax : List (String × Nat))
    (tUnavail : List (String × List (String × String)))
    (tPref : List (String × List String))
    (hv1 : sharesValidated cls1 = true) (hv2 : sharesValidated cls2 = true)
    (h : cls1.map eraseShareClass = cls2.map eraseShareClass) :
    buildSpecs semester cls1 = buildSpecs semester cls2 ∧
    (∀ fl a,
      satisfiesHard (mkInput (buildSpecs semester cls1) days periods minW
        minByClass byTag tMax tUnavail tPref) fl a =
      satisfiesHard (mkInput (buildSpecs semester cls2) days periods minW
        minByClass byTag tMax tUnavail tPref) fl a) ∧
    (∀ fl a pa,
      satisfiesPenalty (mkInput (buildSpecs semester cls1) days periods minW
        minByClass byTag tMax tUnavail tPref) fl a pa =
      satisfiesPenalty (mkInput (buildSpecs semester cls2) days periods minW
        minByClass byTag tMax tUnavail tPref) fl a pa) ∧
    (∀ fl pa,
      objectiveValue (mkInput (buildSpecs semester cls1) days periods minW
        minByClass byTag tMax tUnavail tPref) fl pa =
      objectiveValue (mkInput (buildSpecs semester cls2) days periods minW
        minByClass byTag tMax tUnavail tPref) fl pa) ∧
    (∀ fl oracle,
      compileAndSolve (mkInput (buildSpecs semester cls1) days periods minW
        minByClass byTag tMax tUnavail tPref) fl oracle =
      compileAndSolve (mkInput (buildSpecs semester cls2) days periods minW
        minByClass byTag tMax tUnavail tPref) fl oracle) := by
  have hs : buildSpecs semester cls1 = buildSpecs semester cls2 := by
    rw [← buildSpecs_eraseShare semester cls1, ← buildSpecs_eraseShare semester cls2, h]
  exact ⟨hs, fun fl a => by rw [hs], fun fl a pa => by rw [hs],
    fun fl pa => by rw [hs], fun fl oracle => by rw [hs]⟩

/-- Witness for C9: two validated inputs with different share maps build
identical solver specs. -/
theorem C9_share_field_unenforced_witness :
    buildSpecs "S1" w9ClassesA = buildSpecs "S1" w9ClassesB :=
  (C9_share_field_unenforced "S1" w9ClassesA w9ClassesB ["Mon"] ["P1"] none
    [] [] [] [] [] (by decide) (by decide) (by decide)).1

/-! ### C5 -/

/-- Every solver call the diagnoser makes carries `enable_teacher_constraints
= False` (checked across all control-flow branches). -/
theorem diagnoseRun_trace_teacher_off (inp : Input) (o : SolveFlags → CpStatus) :
    ((diagnoseRun inp o).2).all (fun f => !f.teacher) = true := by
  cases h1 : (precheckInp inp).isEmpty <;>
  cases h2 : isFeasibleStatus (o baselineFlags) <;>
  cases h3 : minApplicable inp <;>
  cases h4 : isFeasibleStatus (o minFlags) <;>
  cases h5 : tagApplicable inp <;>
  cases h6 : isFeasibleStatus (o tagFlags) <;>
  cases h7 : isFeasibleStatus (o placementFlags) <;>
  simp [diagnoseRun, h1, h2, h3, h4, h5, h6, h7] <;> decide

/-- C5: every re-solve the diagnoser issues (baseline and all isolation
steps) has the teacher hard-limit group disabled; consequently, when the
precheck passes and the model is feasible whenever teacher constraints are
off — an infeasibility caused solely by teacher hard limits — the diagnoser
never attributes the failure to any group and falls through to the generic
interaction report. -/
theorem C5_teacher_group_never_isolated (inp : Input) (o : SolveFlags → CpStatus) :
    (∀ f ∈ (diagnoseRun inp o).2, f.teacher = false) ∧
    (precheckInp inp = [] →
      (∀ f : SolveFlags, f.teacher = false → isFeasibleStatus (o f) = true) →
      (diagnoseRun inp o).1 = interactionLines) := by
  constructor
  · intro f hf
    have h := List.all_eq_true.mp (diagnoseRun_trace_teacher_off inp o) f hf
    simpa using h
  · intro hpre hfeas
    have h1 : (precheckInp inp).isEmpty = true := by rw [hpre]; rfl
    have h2 : isFeasibleStatus (o baselineFlags) = true := hfeas _ rfl
    have h4 : isFeasibleStatus (o minFlags) = true := hfeas _ rfl
    have h6 : isFeasibleStatus (o tagFlags) = true := hfeas _ rfl
    have h7 : isFeasibleStatus (o placementFlags) = true := hfeas _ rfl
    simp [diagnoseRun, h1, h2, h4, h6, h7]

/-- Witness for C5: a teacher-only infeasibility on a concrete input reaches
the interaction bucket, and the baseline call indeed has teacher limits off. -/
theorem C5_teacher_group_never_isolated_witness :
    ((diagnoseRun exInput1 (fun _ => CpStatus.feasible)).1 = interactionLines) ∧
    baselineFlags.teacher = false :=
  ⟨(C5_teacher_group_never_isolated exInput1 (fun _ => CpStatus.feasible)).2
      (by decide) (fun f _ => rfl),
   (C5_teacher_group_never_isolated exInput1 (fun _ => CpStatus.feasible)).1
      baselineFlags (by decide)⟩

/-! ### C4 -/

/-- C4: when the precheck passes and the baseline relaxation is feasible, the
diagnoser enables exactly one optional group per re-solve, in the fixed order
minimum-load, tag caps, placement (restricted to the applicable groups),
returns the explanation of the first group whose isolated enablement is not
feasible, and performs no re-solve beyond that first failure: the solver
trace is the baseline followed by one call per group up to and including the
first failing one. -/
theorem C4_sequential_isolation (inp : Input) (o : SolveFlags → CpStatus) (g : DiagGroup)
    (hpre : precheckInp inp = [])
    (hbase : isFeasibleStatus (o baselineFlags) = true)
    (hfind : (optionalGroups inp).find?
        (fun g2 => !isFeasibleStatus (o (groupFlags g2))) = some g) :
    diagnoseRun inp o =
      (groupLines g,
        baselineFlags ::
          (((optionalGroups inp).takeWhile
              (fun g2 => isFeasibleStatus (o (groupFlags g2)))).map groupFlags ++
            [groupFlags g])) ∧
    ∀ g2 ∈ optionalGroups inp, exactlyOneGroupEnabled (groupFlags g2) = true := by
  have h1 : (precheckInp inp).isEmpty = true := by rw [hpre]; rfl
  refine ⟨?_, fun g2 _ => by cases g2 <;> rfl⟩
  cases h3 : minApplicable inp <;> cases h5 : tagApplicable inp <;>
  cases h4 : isFeasibleStatus (o minFlags) <;>
  cases h6 : isFeasibleStatus (o tagFlags) <;>
  cases h7 : isFeasibleStatus (o placementFlags) <;>
  simp_all [diagnoseRun, optionalGroups, groupFlags, groupLines, List.find?,
    List.takeWhile] <;>
  (cases hfind;
   simp_all [diagnoseRun, optionalGroups, groupFlags, groupLines, List.takeWhile])

/-- Witness for C4: on a concrete input with a configured minimum, an oracle
failing exactly the minimum-load isolation step makes the diagnoser stop
there with the minimum-load explanation. -/
theorem C4_sequential_isolation_witness :
    diagnoseRun c2Input c2OracleInfeasible =
      (groupLines DiagGroup.minLoad,
        baselineFlags ::
          (((optionalGroups c2Input).takeWhile
              (fun g2 => isFeasibleStatus (c2OracleInfeasible (groupFlags g2)))).map
              groupFlags ++
            [groupFlags DiagGroup.minLoad])) :=
  (C4_sequential_isolation c2Input c2OracleInfeasible DiagGroup.minLoad
    (by decide) (by decide) (by decide)).1

theorem dictGet?_nil {α : Type} (k : String) :
    dictGet? ([] : List (String × α)) k = none := rfl

theorem dictGet?_cons {α : Type} (kv : String × α) (rest : List (String × α))
    (k2 : String) :
    dictGet? (kv :: rest) k2 = if kv.1 == k2 then some kv.2 else dictGet? rest k2 := by
  cases hk : (kv.1 == k2) <;> simp [dictGet?, List.find?, hk]

theorem dictGet?_dictSet_cases {α : Type} (m : List (String × α)) (k k2 : String)
    (v w : α) (h : dictGet? (dictSet m k v) k2 = some w) :
    w = v ∨ dictGet? m k2 = some w := by
  induction m with
  | nil =>
      rw [dictSet, dictGet?_cons] at h
      split at h
      · exact Or.inl (Option.some.inj h).symm
      · rw [dictGet?_nil] at h; cases h
  | cons kv rest ih =>
      rw [dictSet] at h
      split at h
      case isTrue hset =>
        rw [dictGet?_cons] at h
        split at h
        case isTrue hk => exact Or.inl (Option.some.inj h).symm
        case isFalse hk =>
          refine Or.inr ?_
          rw [dictGet?_cons]
          have e1 : kv.1 = k := by simpa using hset
          have e2 : ¬ (kv.1 == k2) = true := by
            intro hkk
            exact hk (by simp [e1] at hkk; simp [hkk])
          rw [if_neg e2]
          exact h
      case isFalse hset =>
        rw [dictGet?_cons] at h
        split at h
        case isTrue hk =>
          refine Or.inr ?_
          rw [dictGet?_cons, if_pos hk]
          exact h
        case isFalse hk =>
          rcases ih h with h1 | h2
          · exact Or.inl h1
          · refine Or.inr ?_
            rw [dictGet?_cons, if_neg hk]
            exact h2

theorem foldl_dictSet_bound (pairs : List (Nat × String)) (init : List (String × Nat))
    (n : Nat) (hp : ∀ iv ∈ pairs, iv.1 < n)
    (hi : ∀ k w, dictGet? init k = some w → w < n) :
    ∀ k w, dictGet? (pairs.foldl (fun m iv => dictSet m iv.2 iv.1) init) k = some w →
      w < n := by
  induction pairs generalizing init with
  | nil => simpa using hi
  | cons iv rest ih =>
      intro k w h
      refine ih (dictSet init iv.2 iv.1)
        (fun x hx => hp x (List.mem_cons_of_mem iv hx)) ?_ k w h
      intro k2 w2 h2
      rcases dictGet?_dictSet_cases init iv.2 k2 iv.1 w2 h2 with rfl | h3
      · exact hp iv (List.mem_cons_self iv rest)
      · exact hi k2 w2 h3

theorem enum_fst_lt (l : List String) : ∀ iv ∈ l.enum, iv.1 < l.length := by
  intro iv hiv
  rw [List.mem_enum_iff_getElem?] at hiv
  obtain ⟨hlt, _⟩ := List.getElem?_eq_some.mp hiv
  exact hlt

theorem buildIdx_lookup_lt (l : List String) (k : String) (i : Nat)
    (h : dictGet? (buildIdx l) k = some i) : i < l.length :=
  foldl_dictSet_bound l.enum [] l.length (enum_fst_lt l)
    (by intro k2 w h2; rw [dictGet?_nil] at h2; cases h2) k i h

theorem dayToIdx_lt (inp : Input) (dn : String) (d : Nat)
    (h : dayToIdx inp dn = some d) : d < inp.days.length :=
  buildIdx_lookup_lt inp.days dn d h

theorem periodToIdx_lt (inp : Input) (pn : String) (p : Nat)
    (h : periodToIdx inp pn = some p) : p < inp.periods.length :=
  buildIdx_lookup_lt inp.periods pn p h

theorem mem_rangeTo (lo hi x : Nat) : x ∈ rangeTo lo hi ↔ lo ≤ x ∧ x ≤ hi := by
  simp only [rangeTo, List.mem_range'_1]
  omega

theorem fsDaysToConsider_lt (inp : Input) (fs : FixedSessionSpec)
    (daysTC : List Nat) (h : fsDaysToConsider inp fs = some daysTC) :
    ∀ d ∈ daysTC, d < inp.days.length := by
  intro d hd
  unfold fsDaysToConsider at h
  cases hday : fs.day with
  | none =>
      simp only [hday] at h
      obtain rfl := Option.some.inj h
      simpa using hd
  | some dn =>
      simp only [hday] at h
      cases hdi : dayToIdx inp dn with
      | none => simp [hdi] at h
      | some d0 =>
          simp only [hdi] at h
          obtain rfl := Option.some.inj h
          have : d = d0 := by simpa using hd
          exact this ▸ dayToIdx_lt inp dn d0 hdi

theorem orElse_none_parts {α : Type} (a b : Option α) (h : (a <|> b) = none) :
    a = none ∧ b = none := by
  cases a with
  | none => exact ⟨rfl, by simpa using h⟩
  | some x => simp at h

theorem compileCheck_none_fixedErr (inp : Input) (fl : SolveFlags)
    (h : compileCheck inp fl = none) (hp : fl.placement = true) :
    fixedSessionsError inp = none := by
  unfold compileCheck at h
  have h1 := (orElse_none_parts _ _ h).2
  have h2 := (orElse_none_parts _ _ h1).2
  have h3 := (orElse_none_parts _ _ h2).2
  have h4 := (orElse_none_parts _ _ h3).2
  have h5 := (orElse_none_parts _ _ h4).1
  rw [hp] at h5
  simpa using h5

theorem fixedSessionOK_of_satisfies (inp : Input) (fl : SolveFlags) (a : Assignment)
    (cs : ClassSemesterSpec) (subj : SubjectSpec) (fs : FixedSessionSpec)
    (hp : fl.placement = true) (hcs : cs ∈ inp.specs) (hsubj : subj ∈ cs.subjects)
    (hfs : fs ∈ subj.fixed_sessions) (h : satisfiesHard inp fl a = true) :
    fixedSessionOK inp a cs.class_name subj.name subj.min_contiguous_periods
      subj.max_contiguous_periods fs = true := by
  have hfx := (satisfiesHard_parts inp fl a h).2.2.2.2.2.1
  rw [fixedSessionsOK, hp, if_pos rfl] at hfx
  exact List.all_eq_true.mp
    ((List.all_eq_true.mp ((List.all_eq_true.mp hfx) cs hcs)) subj hsubj) fs hfs

theorem fixedSession_forces_var (inp : Input) (fl : SolveFlags) (cs : ClassSemesterSpec)
    (subj : SubjectSpec) (fs : FixedSessionSpec) (a : Assignment) (dn : String)
    (dur : Nat)
    (hp : fl.placement = true) (hcs : cs ∈ inp.specs) (hsubj : subj ∈ cs.subjects)
    (hfs : fs ∈ subj.fixed_sessions)
    (hday : fs.day = some dn) (hdur : fs.duration = some dur)
    (hcheck : compileCheck inp fl = none)
    (hsat : satisfiesHard inp fl a = true) :
    ∃ d start, dayToIdx inp dn = some d ∧ periodToIdx inp fs.period = some start ∧
      fsMatchingVars inp subj fs = [(d, start, dur)] ∧
      a.y cs.class_name subj.name d start dur = 1 := by
  have hfse := compileCheck_none_fixedErr inp fl hcheck hp
  have herr : fixedSessionError inp cs subj fs = none := by
    rw [fixedSessionsError] at hfse
    have h1 := List.findSome?_eq_none.mp hfse cs hcs
    have h2 := List.findSome?_eq_none.mp h1 subj hsubj
    exact List.findSome?_eq_none.mp h2 fs hfs
  cases hpi : periodToIdx inp fs.period with
  | none => simp [fixedSessionError, hpi] at herr
  | some start =>
  cases hdi : dayToIdx inp dn with
  | none =>
      have hdt : fsDaysToConsider inp fs = none := by
        unfold fsDaysToConsider; rw [hday]; simp [hdi]
      simp [fixedSessionError, hpi, hdt] at herr
  | some d =>
  have hdt : fsDaysToConsider inp fs = some [d] := by
    unfold fsDaysToConsider; rw [hday]; simp [hdi]
  simp only [fixedSessionError, hpi, hdt, hdur] at herr
  split at herr
  · exact absurd herr (by simp)
  case isFalse cBounds =>
  split at herr
  · exact absurd herr (by simp)
  case isFalse cFit =>
  split at herr
  · exact absurd herr (by simp)
  case isFalse cEmpty =>
  have hd_lt : d < inp.days.length := dayToIdx_lt inp dn d hdi
  have hs_lt : start < inp.periods.length := periodToIdx_lt inp fs.period start hpi
  have hbounds : subj.min_contiguous_periods ≤ dur ∧ dur ≤ subj.max_contiguous_periods := by
    simp at cBounds
    omega
  have hfit : start + dur ≤ inp.periods.length := by
    simp at cFit
    omega
  have hkey : yKeyExists inp subj d start dur = true := by
    simp only [yKeyExists, Bool.and_eq_true, decide_eq_true_eq]
    exact ⟨⟨⟨⟨hd_lt, hs_lt⟩, hbounds.1⟩, hbounds.2⟩, hfit⟩
  have hmv : fsMatchingVars inp subj fs = [(d, start, dur)] := by
    simp [fsMatchingVars, hpi, hdt, hdur, hkey]
  refine ⟨d, start, rfl, rfl, hmv, ?_⟩
  have hok := fixedSessionOK_of_satisfies inp fl a cs subj fs hp hcs hsubj hfs hsat
  simp only [fixedSessionOK, hpi, hdt, hdur] at hok
  split at hok
  case isTrue c => exact absurd c cBounds
  simpa using hok

theorem fixedSession_zero_candidates_error (inp : Input) (fl : SolveFlags) (cs : ClassSemesterSpec)
    (subj : SubjectSpec) (fs : FixedSessionSpec)
    (hp : fl.placement = true) (hcs : cs ∈ inp.specs) (hsubj : subj ∈ cs.subjects)
    (hfs : fs ∈ subj.fixed_sessions)
    (start : Nat) (daysTC : List Nat)
    (hpi : periodToIdx inp fs.period = some start)
    (hdt : fsDaysToConsider inp fs = some daysTC)
    (hzero : fsMatchingVars inp subj fs = []) :
    (∃ e, fixedSessionError inp cs subj fs = some e ∧
      ∃ suffix, e = subjPrefix cs subj ++ suffix) ∧
    compileCheck inp fl ≠ none ∧
    ∀ o1 o2 : SolveFlags → CpStatus,
      compileAndSolve inp fl o1 = compileAndSolve inp fl o2 := by
  have hs_lt : start < inp.periods.length := periodToIdx_lt inp fs.period start hpi
  have hdlt := fsDaysToConsider_lt inp fs daysTC hdt
  have herr : ∃ e, fixedSessionError inp cs subj fs = some e ∧
      ∃ suffix, e = subjPrefix cs subj ++ suffix := by
    cases hdur : fs.duration with
    | some dur =>
        simp only [fixedSessionError, hpi, hdt, hdur]
        by_cases c1 : (decide (dur < subj.min_contiguous_periods) ||
            decide (subj.max_contiguous_periods < dur)) = true
        · rw [if_pos c1]; exact ⟨_, rfl, _, rfl⟩
        · rw [if_neg c1]
          by_cases c2 : inp.periods.length < start + dur
          · rw [if_pos c2]; exact ⟨_, rfl, _, rfl⟩
          · rw [if_neg c2]
            by_cases c3 : daysTC.isEmpty = true
            · rw [if_pos c3]; exact ⟨_, rfl, _, rfl⟩
            · exfalso
              obtain ⟨d, hd⟩ : ∃ d, d ∈ daysTC := by
                cases daysTC with
                | nil => simp at c3
                | cons x xs => exact ⟨x, List.mem_cons_self x xs⟩
              have hb : ¬ dur < subj.min_contiguous_periods ∧
                  ¬ subj.max_contiguous_periods < dur := by
                simpa using c1
              have hkey : yKeyExists inp subj d start dur = true := by
                simp only [yKeyExists, Bool.and_eq_true, decide_eq_true_eq]
                exact ⟨⟨⟨⟨hdlt d hd, hs_lt⟩, by omega⟩, by omega⟩, by omega⟩
              have hin : (d, start, dur) ∈ fsMatchingVars inp subj fs := by
                simp only [fsMatchingVars, hpi, hdt, hdur]
                refine List.mem_flatMap.mpr ⟨d, hd, ?_⟩
                simp [hkey]
              rw [hzero] at hin
              simp at hin
    | none =>
        have hcands : (daysTC.flatMap fun d =>
            (rangeTo subj.min_contiguous_periods subj.max_contiguous_periods).filterMap
              fun dur =>
                if start + dur ≤ inp.periods.length then some (d, dur) else none) = [] := by
          rw [List.eq_nil_iff_forall_not_mem]
          rintro ⟨d, dur⟩ hmem
          obtain ⟨d2, hd2, hmem2⟩ := List.mem_flatMap.mp hmem
          obtain ⟨dur2, hdur2, heq⟩ := List.mem_filterMap.mp hmem2
          by_cases cfit : start + dur2 ≤ inp.periods.length
          · have hbounds := (mem_rangeTo _ _ _).mp hdur2
            have hkey : yKeyExists inp subj d2 start dur2 = true := by
              simp only [yKeyExists, Bool.and_eq_true, decide_eq_true_eq]
              exact ⟨⟨⟨⟨hdlt d2 hd2, hs_lt⟩, hbounds.1⟩, hbounds.2⟩, cfit⟩
            have hin : (d2, start, dur2) ∈ fsMatchingVars inp subj fs := by
              simp only [fsMatchingVars, hpi, hdt, hdur]
              refine List.mem_flatMap.mpr ⟨d2, hd2, ?_⟩
              refine List.mem_filterMap.mpr ⟨dur2, hdur2, ?_⟩
              simp [hkey]
            rw [hzero] at hin
            simp at hin
          · rw [if_neg cfit] at heq; cases heq
        simp only [fixedSessionError, hpi, hdt, hdur]
        rw [hcands]
        refine ⟨_, rfl, _, rfl⟩
  have hne : compileCheck inp fl ≠ none := by
    intro hnone
    have hfse := compileCheck_none_fixedErr inp fl hnone hp
    rw [fixedSessionsError] at hfse
    have h1 := List.findSome?_eq_none.mp hfse cs hcs
    have h2 := List.findSome?_eq_none.mp h1 subj hsubj
    have h3 := List.findSome?_eq_none.mp h2 fs hfs
    obtain ⟨e, he, _⟩ := herr
    rw [he] at h3
    cases h3
  refine ⟨herr, hne, fun o1 o2 => ?_⟩
  unfold compileAndSolve
  cases hc : compileCheck inp fl with
  | none => exact absurd hc hne
  | some e => rfl

/-- C7: with placement constraints enabled, (a) a fixed session whose day and
duration are both given pins the single matching start variable — whenever
compilation succeeds, that session maps to exactly one existing start
variable and every assignment satisfying the compiled model sets it to 1;
and (b) a fixed session that maps to zero existing start variables makes
compilation raise a configuration error whose message carries the class and
subject identifiers, so the solve outcome is that error for every solver
oracle — the solver is never invoked. -/
theorem C7_fixed_sessions (inp : Input) (fl : SolveFlags) (cs : ClassSemesterSpec)
    (subj : SubjectSpec) (fs : FixedSessionSpec)
    (hp : fl.placement = true) (hcs : cs ∈ inp.specs) (hsubj : subj ∈ cs.subjects)
    (hfs : fs ∈ subj.fixed_sessions) :
    (∀ (a : Assignment) (dn : String) (dur : Nat),
      fs.day = some dn → fs.duration = some dur →
      compileCheck inp fl = none → satisfiesHard inp fl a = true →
      ∃ d start, dayToIdx inp dn = some d ∧ periodToIdx inp fs.period = some start ∧
        fsMatchingVars inp subj fs = [(d, start, dur)] ∧
        a.y cs.class_name subj.name d start dur = 1) ∧
    (∀ (start : Nat) (daysTC : List Nat),
      periodToIdx inp fs.period = some start →
      fsDaysToConsider inp fs = some daysTC →
      fsMatchingVars inp subj fs = [] →
      (∃ e, fixedSessionError inp cs subj fs = some e ∧
        ∃ suffix, e = subjPrefix cs subj ++ suffix) ∧
      compileCheck inp fl ≠ none ∧
      ∀ o1 o2 : SolveFlags → CpStatus,
        compileAndSolve inp fl o1 = compileAndSolve inp fl o2) :=
  ⟨fun a dn dur hday hdur hcheck hsat =>
    fixedSession_forces_var inp fl cs subj fs a dn dur hp hcs hsubj hfs hday hdur
      hcheck hsat,
   fun start daysTC hpi hdt hzero =>
    fixedSession_zero_candidates_error inp fl cs subj fs hp hcs hsubj hfs
      start daysTC hpi hdt hzero⟩

/-- Witness for C7: the pinned variable is 1 on a concrete satisfying
assignment, and the zero-candidate variant yields a configuration error
naming the class and subject. -/
theorem C7_fixed_sessions_witness :
    (∃ d start, dayToIdx w7Input "Mon" = some d ∧
      periodToIdx w7Input "P1" = some start ∧
      fsMatchingVars w7Input w7Subj
        { period := "P1", day := some "Mon", duration := some 2 } =
          [(d, start, 2)] ∧
      w7Assign.y "CA" "Math" d start 2 = 1) ∧
    (∃ e, fixedSessionError w7BadInput w7BadCls w7BadSubj
        { period := "P1", day := some "Mon", duration := some 3 } = some e ∧
      ∃ suffix, e = subjPrefix w7BadCls w7BadSubj ++ suffix) :=
  ⟨(C7_fixed_sessions w7Input fullFlags w7Cls w7Subj
      { period := "P1", day := some "Mon", duration := some 2 }
      (by decide) (by decide) (by decide) (by decide)).1 w7Assign "Mon" 2 rfl rfl
      (by decide) (by decide),
   ((C7_fixed_sessions w7BadInput fullFlags w7BadCls w7BadSubj
      { period := "P1", day := some "Mon", duration := some 3 }
      (by decide) (by decide) (by decide) (by decide)).2 0 [0]
      (by decide) (by decide) (by decide)).1⟩

theorem cover_swap (P minc maxc : Nat) (f : Nat → Nat → Int) :
    ∑ p ∈ Finset.range P, ∑ s ∈ Finset.range P, ∑ dur ∈ Finset.Icc minc maxc,
      (if s + dur ≤ P ∧ s ≤ p ∧ p < s + dur then f s dur else 0) =
    ∑ s ∈ Finset.range P, ∑ dur ∈ Finset.Icc minc maxc,
      (if s + dur ≤ P then (dur : Int) * f s dur else 0) := by
  rw [Finset.sum_comm]
  refine Finset.sum_congr rfl (fun s hs => ?_)
  rw [Finset.sum_comm]
  refine Finset.sum_congr rfl (fun dur hdur => ?_)
  by_cases hfit : s + dur ≤ P
  · rw [if_pos hfit]
    have h1 : ∀ p ∈ Finset.range P,
        (if s + dur ≤ P ∧ s ≤ p ∧ p < s + dur then f s dur else 0) =
        (if s ≤ p ∧ p < s + dur then f s dur else 0) := by
      intro p hp
      by_cases hc : s ≤ p ∧ p < s + dur
      · rw [if_pos ⟨hfit, hc⟩, if_pos hc]
      · rw [if_neg (fun h => hc h.2), if_neg hc]
    rw [Finset.sum_congr rfl h1, ← Finset.sum_filter]
    have h2 : (Finset.range P).filter (fun p => s ≤ p ∧ p < s + dur) =
        Finset.Ico s (s + dur) := by
      ext p
      simp only [Finset.mem_filter, Finset.mem_range, Finset.mem_Ico]
      omega
    rw [h2, Finset.sum_const, Nat.card_Ico, nsmul_eq_mul]
    congr 1
    omega
  · rw [if_neg hfit]
    refine Finset.sum_eq_zero (fun p hp => ?_)
    rw [if_neg (fun h => hfit h.1)]

theorem isBool01_bounds (v : Int) (h : isBool01 v = true) : 0 ≤ v ∧ v ≤ 1 := by
  simp only [isBool01, Bool.or_eq_true, beq_iff_eq] at h
  rcases h with rfl | rfl <;> omega

theorem y_bounds_of_domains (inp : Input) (a : Assignment) (cs : ClassSemesterSpec)
    (subj : SubjectSpec) (hcs : cs ∈ inp.specs) (hsubj : subj ∈ cs.subjects)
    (hdom : varDomainsOK inp a = true) :
    ∀ d start dur, d < inp.days.length → start < inp.periods.length →
      subj.min_contiguous_periods ≤ dur → dur ≤ subj.max_contiguous_periods →
      start + dur ≤ inp.periods.length →
      0 ≤ a.y cs.class_name subj.name d start dur ∧
        a.y cs.class_name subj.name d start dur ≤ 1 := by
  intro d start dur hd hstart hd1 hd2 hfit
  have h1 := List.all_eq_true.mp hdom cs hcs
  rw [Bool.and_eq_true] at h1
  have h2 := List.all_eq_true.mp h1.2 subj hsubj
  rw [Bool.and_eq_true] at h2
  have h3 := List.all_eq_true.mp h2.2 d (List.mem_range.mpr hd)
  have h4 := List.all_eq_true.mp h3 start (List.mem_range.mpr hstart)
  have h5 := List.all_eq_true.mp h4 dur ((mem_rangeTo _ _ _).mpr ⟨hd1, hd2⟩)
  rw [if_pos hfit] at h5
  exact isBool01_bounds _ h5

theorem occSubj_bounds_of_domains (inp : Input) (a : Assignment)
    (cs : ClassSemesterSpec) (subj : SubjectSpec)
    (hcs : cs ∈ inp.specs) (hsubj : subj ∈ cs.subjects)
    (hdom : varDomainsOK inp a = true) :
    ∀ d p, d < inp.days.length → p < inp.periods.length →
      0 ≤ a.occSubj cs.class_name subj.name d p ∧
        a.occSubj cs.class_name subj.name d p ≤ 1 := by
  intro d p hd hp
  have h1 := List.all_eq_true.mp hdom cs hcs
  rw [Bool.and_eq_true] at h1
  have h2 := List.all_eq_true.mp h1.2 subj hsubj
  rw [Bool.and_eq_true] at h2
  have h3 := List.all_eq_true.mp h2.1 d (List.mem_range.mpr hd)
  have h4 := List.all_eq_true.mp h3 p (List.mem_range.mpr hp)
  rw [Bool.and_eq_true] at h4
  exact isBool01_bounds _ h4.1

theorem occSubjTeacher_bounds_of_domains (inp : Input) (a : Assignment)
    (cs : ClassSemesterSpec) (subj : SubjectSpec) (t : String)
    (hcs : cs ∈ inp.specs) (hsubj : subj ∈ cs.subjects) (ht : t ∈ subj.teachers)
    (hdom : varDomainsOK inp a = true) :
    ∀ d p, d < inp.days.length → p < inp.periods.length →
      0 ≤ a.occSubjTeacher cs.class_name subj.name t d p ∧
        a.occSubjTeacher cs.class_name subj.name t d p ≤ 1 := by
  intro d p hd hp
  have h1 := List.all_eq_true.mp hdom cs hcs
  rw [Bool.and_eq_true] at h1
  have h2 := List.all_eq_true.mp h1.2 subj hsubj
  rw [Bool.and_eq_true] at h2
  have h3 := List.all_eq_true.mp h2.1 d (List.mem_range.mpr hd)
  have h4 := List.all_eq_true.mp h3 p (List.mem_range.mpr hp)
  rw [Bool.and_eq_true] at h4
  have h5 := List.all_eq_true.mp h4.2 t ht
  exact isBool01_bounds _ h5

theorem countSum_nonneg (inp : Input) (a : Assignment) (cs : ClassSemesterSpec)
    (subj : SubjectSpec) (d : Nat)
    (hcs : cs ∈ inp.specs) (hsubj : subj ∈ cs.subjects) (hd : d < inp.days.length)
    (hdom : varDomainsOK inp a = true) :
    0 ≤ countSum inp a cs.class_name subj.name subj.min_contiguous_periods
      subj.max_contiguous_periods d := by
  refine Finset.sum_nonneg (fun start hstart => ?_)
  refine Finset.sum_nonneg (fun dur hdur => ?_)
  rw [Finset.mem_range] at hstart
  rw [Finset.mem_Icc] at hdur
  by_cases hfit : start + dur ≤ inp.periods.length
  · rw [if_pos hfit]
    exact (y_bounds_of_domains inp a cs subj hcs hsubj hdom d start dur hd hstart
      hdur.1 hdur.2 hfit).1
  · rw [if_neg hfit]

theorem occSubjLink_eq (inp : Input) (a : Assignment) (cs : ClassSemesterSpec)
    (subj : SubjectSpec)
    (hcs : cs ∈ inp.specs) (hsubj : subj ∈ cs.subjects)
    (hlink : occSubjLinkOK inp a = true) :
    ∀ d p, d < inp.days.length → p < inp.periods.length →
      a.occSubj cs.class_name subj.name d p =
        coverSum inp a cs.class_name subj.name subj.min_contiguous_periods
          subj.max_contiguous_periods d p := by
  intro d p hd hp
  have h1 := List.all_eq_true.mp hlink cs hcs
  have h2 := List.all_eq_true.mp h1 subj hsubj
  have h3 := List.all_eq_true.mp h2 d (List.mem_range.mpr hd)
  have h4 := List.all_eq_true.mp h3 p (List.mem_range.mpr hp)
  exact beq_iff_eq.mp h4

theorem countSum_le (inp : Input) (a : Assignment) (cs : ClassSemesterSpec)
    (subj : SubjectSpec) (d : Nat)
    (hcs : cs ∈ inp.specs) (hsubj : subj ∈ cs.subjects) (hd : d < inp.days.length)
    (hminc : 1 ≤ subj.min_contiguous_periods)
    (hdom : varDomainsOK inp a = true) (hlink : occSubjLinkOK inp a = true) :
    countSum inp a cs.class_name subj.name subj.min_contiguous_periods
      subj.max_contiguous_periods d ≤ (inp.periods.length : Int) := by
  have step1 : countSum inp a cs.class_name subj.name subj.min_contiguous_periods
      subj.max_contiguous_periods d ≤
      durSumDay inp a cs.class_name subj.name subj.min_contiguous_periods
        subj.max_contiguous_periods d := by
    refine Finset.sum_le_sum (fun start hstart => ?_)
    refine Finset.sum_le_sum (fun dur hdur => ?_)
    rw [Finset.mem_range] at hstart
    rw [Finset.mem_Icc] at hdur
    by_cases hfit : start + dur ≤ inp.periods.length
    · rw [if_pos hfit, if_pos hfit]
      have hy := y_bounds_of_domains inp a cs subj hcs hsubj hdom d start dur hd
        hstart hdur.1 hdur.2 hfit
      have hdur1 : (1 : Int) ≤ (dur : Int) := by
        have : 1 ≤ dur := le_trans hminc hdur.1
        exact_mod_cast this
      exact le_mul_of_one_le_left hy.1 hdur1
    · rw [if_neg hfit, if_neg hfit]
  have step2 : durSumDay inp a cs.class_name subj.name subj.min_contiguous_periods
      subj.max_contiguous_periods d =
      ∑ p ∈ Finset.range inp.periods.length,
        coverSum inp a cs.class_name subj.name subj.min_contiguous_periods
          subj.max_contiguous_periods d p := by
    simp only [durSumDay, coverSum]
    exact (cover_swap inp.periods.length subj.min_contiguous_periods
      subj.max_contiguous_periods (fun s dur => a.y cs.class_name subj.name d s dur)).symm
  have step3 : ∑ p ∈ Finset.range inp.periods.length,
      coverSum inp a cs.class_name subj.name subj.min_contiguous_periods
        subj.max_contiguous_periods d p ≤ (inp.periods.length : Int) := by
    have : ∑ p ∈ Finset.range inp.periods.length,
        coverSum inp a cs.class_name subj.name subj.min_contiguous_periods
          subj.max_contiguous_periods d p =
        ∑ p ∈ Finset.range inp.periods.length,
          a.occSubj cs.class_name subj.name d p := by
      refine Finset.sum_congr rfl (fun p hp => ?_)
      rw [Finset.mem_range] at hp
      exact (occSubjLink_eq inp a cs subj hcs hsubj hlink d p hd hp).symm
    rw [this]
    calc ∑ p ∈ Finset.range inp.periods.length, a.occSubj cs.class_name subj.name d p
        ≤ ∑ _p ∈ Finset.range inp.periods.length, (1 : Int) := by
          refine Finset.sum_le_sum (fun p hp => ?_)
          rw [Finset.mem_range] at hp
          exact (occSubj_bounds_of_domains inp a cs subj hcs hsubj hdom d p hd hp).2
      _ = (inp.periods.length : Int) := by
          rw [Finset.sum_const, Finset.card_range, nsmul_eq_mul, mul_one]
  calc countSum inp a cs.class_name subj.name subj.min_contiguous_periods
        subj.max_contiguous_periods d ≤ _ := step1
    _ = _ := step2
    _ ≤ _ := step3

theorem teacherSlotSum_nonneg (inp : Input) (a : Assignment) (t : String) (d p : Nat)
    (hd : d < inp.days.length) (hp : p < inp.periods.length)
    (hdom : varDomainsOK inp a = true) :
    0 ≤ teacherSlotSum inp a t d p := by
  refine List.sum_nonneg (fun x hx => ?_)
  obtain ⟨cs, hcs, rfl⟩ := List.mem_map.mp hx
  refine List.sum_nonneg (fun z hz => ?_)
  obtain ⟨subj, hsubj, rfl⟩ := List.mem_map.mp hz
  obtain ⟨hsubj2, ht⟩ := List.mem_filter.mp hsubj
  exact (occSubjTeacher_bounds_of_domains inp a cs subj t hcs hsubj2 (by simpa using ht)
    hdom d p hd hp).1

theorem teacherSlotSum_le_one (inp : Input) (a : Assignment) (t : String) (d p : Nat)
    (ht : t ∈ teachersOf inp.specs) (hd : d < inp.days.length)
    (hp : p < inp.periods.length) (hexcl : teacherExclusiveOK inp a = true) :
    teacherSlotSum inp a t d p ≤ 1 := by
  have h1 := List.all_eq_true.mp hexcl t ht
  have h2 := List.all_eq_true.mp h1 d (List.mem_range.mpr hd)
  have h3 := List.all_eq_true.mp h2 p (List.mem_range.mpr hp)
  exact of_decide_eq_true h3

theorem find?_beq_of_nodup {α : Type} (l : List α) (key : α → String) (x : α)
    (hnodup : (l.map key).Nodup) (hx : x ∈ l) :
    l.find? (fun z => key z == key x) = some x := by
  induction l with
  | nil => cases hx
  | cons y rest ih =>
      rw [List.map_cons, List.nodup_cons] at hnodup
      rcases List.mem_cons.mp hx with rfl | hx2
      · rw [List.find?_cons_of_pos]
        simp
      · have hne : ¬ key y = key x := by
          intro he
          exact hnodup.1 (he ▸ List.mem_map_of_mem key hx2)
        rw [List.find?_cons_of_neg]
        · exact ih hnodup.2 hx2
        · simp [hne]

/-- C8: the compiled objective is exactly 10 times the sum of per-(class,
subject, day) repetition penalties plus 1 times the sum of teacher-preference
penalties, and feasibility is independent of the objective: every assignment
of the decision variables satisfying all hard constraints extends to values
of the penalty variables (`day_count`, `excess`, `tocc`) satisfying their
defining constraints and domains, so the objective machinery never turns a
feasible model infeasible.  (Class and subject names are unique after schema
validation; the minimum contiguous bound is positive by the same token.) -/
theorem C8_objective_and_extendability (inp : Input) (fl : SolveFlags) (a : Assignment)
    (hu1 : (inp.specs.map (fun cs => cs.class_name)).Nodup)
    (hu2 : ∀ cs ∈ inp.specs, (cs.subjects.map (fun s => s.name)).Nodup)
    (hminc : ∀ cs ∈ inp.specs, ∀ s ∈ cs.subjects, 1 ≤ s.min_contiguous_periods)
    (hsat : satisfiesHard inp fl a = true) :
    ∃ pa : PenaltyAssignment,
      satisfiesPenalty inp fl a pa = true ∧
      objectiveValue inp fl pa =
        10 * repPenaltySum inp pa + 1 * prefPenaltySum inp fl pa := by
  have hdom := (satisfiesHard_parts inp fl a hsat).1
  have hlink := (satisfiesHard_parts inp fl a hsat).2.2.2.2.2.2.2.1
  have hexcl := (satisfiesHard_parts inp fl a hsat).2.2.2.2.2.2.2.2.2.2.1
  refine ⟨penaltyExtension inp a, ?_, rfl⟩
  rw [satisfiesPenalty, Bool.and_eq_true]
  constructor
  · refine List.all_eq_true.mpr (fun cs hcs => ?_)
    refine List.all_eq_true.mpr (fun subj hsubj => ?_)
    refine List.all_eq_true.mpr (fun d hdmem => ?_)
    have hd : d < inp.days.length := List.mem_range.mp hdmem
    have hlook : subjLookup inp cs.class_name subj.name = some subj := by
      unfold subjLookup
      rw [find?_beq_of_nodup inp.specs (fun z => z.class_name) cs hu1 hcs]
      exact find?_beq_of_nodup cs.subjects (fun z => z.name) subj (hu2 cs hcs) hsubj
    have hdc : (penaltyExtension inp a).dayCount cs.class_name subj.name d =
        countSum inp a cs.class_name subj.name subj.min_contiguous_periods
          subj.max_contiguous_periods d := by
      simp [penaltyExtension, countOf, hlook]
    have hex : (penaltyExtension inp a).excess cs.class_name subj.name d =
        max 0 ((penaltyExtension inp a).dayCount cs.class_name subj.name d - 1) := rfl
    have h0 := countSum_nonneg inp a cs subj d hcs hsubj hd hdom
    have hP := countSum_le inp a cs subj d hcs hsubj hd
      (hminc cs hcs subj hsubj) hdom hlink
    simp only [Bool.and_eq_true, decide_eq_true_eq, beq_iff_eq]
    rw [hex, hdc]
    refine ⟨⟨⟨⟨⟨h0, hP⟩, ?_⟩, rfl⟩, ?_⟩, ?_⟩
    · constructor
      · exact le_max_left _ _
      · refine max_le (Int.natCast_nonneg _) (by omega)
    · exact le_max_right _ _
    · exact le_max_left _ _
  · cases hfl : fl.teacherPrefs
    · rfl
    · rw [if_pos rfl]
      refine List.all_eq_true.mpr (fun t ht => ?_)
      cases hpref : (prefListFor inp t).isEmpty
      · simp only [hpref]
        refine List.all_eq_true.mpr (fun d hdmem => ?_)
        refine List.all_eq_true.mpr (fun p hpmem => ?_)
        have hd : d < inp.days.length := List.mem_range.mp hdmem
        have hp : p < inp.periods.length := List.mem_range.mp hpmem
        cases hcont : (prefListFor inp t).contains (inp.periods.getD p "")
        · rw [if_neg (by decide : ¬ (false = true))]
          have h0 := teacherSlotSum_nonneg inp a t d p hd hp hdom
          have h1 := teacherSlotSum_le_one inp a t d p ht hd hp hexcl
          have : teacherSlotSum inp a t d p = 0 ∨ teacherSlotSum inp a t d p = 1 := by
            omega
          rw [Bool.and_eq_true]
          constructor
          · rcases this with h | h <;> simp [penaltyExtension, isBool01, h]
          · simp [penaltyExtension]
        · rfl
      · simp [hpref]

/-- Witness for C8 at the concrete one-slot instance. -/
theorem C8_objective_and_extendability_witness :
    ∃ pa : PenaltyAssignment,
      satisfiesPenalty exInput1 fullFlags exAssign1 pa = true ∧
      objectiveValue exInput1 fullFlags pa =
        10 * repPenaltySum exInput1 pa +
          1 * prefPenaltySum exInput1 fullFlags pa :=
  C8_objective_and_extendability exInput1 fullFlags exAssign1
    (by decide) (by decide) (by decide) (by decide)

end Timetable
